import Mathlib

/-
Verification development for the HPRIOR/ray-tracer-rust repository.

The embedding models the floating-point arithmetic of the Rust code over the
real numbers: each f64 value becomes a real number, f64 sqrt becomes Real.sqrt
(junk value 0 on negative inputs, where Rust would produce NaN; every concrete
evaluation below stays on nonnegative radicands), and f64 powf becomes
Real.rpow.  The u32 reflection counter is modelled as a Nat together with the
checked subtraction of Rust debug builds: an Option result whose none value
records the arithmetic-underflow panic from computing 0 - 1 on a u32.

Source files embedded directly: matrix/matrix.rs, colour/colour.rs,
ray/ray.rs, shapes/shape.rs, shapes/plane.rs, material/material.rs,
material/pattern.rs, light/light.rs, world/world.rs, camera/camera.rs,
canvas/canvas.rs.  The repository snapshot does not contain the evolved
geometry module defining the Tup type alias and its Operations trait (only an
older generic Vector/Point generation survives in geometry/vector.rs), the
evolved sphere local-intersection routine (sphere.rs keeps it only as
commented-out code), or the one-argument prep_comps wrapper called from
world.rs (ray.rs has the equivalent prep_comp whose extra list argument is
unused).  Those parts are modelled from the specification, each marked with a
doc comment starting with the words Modelled from the spec.
-/

namespace RayTracer

noncomputable section

/-- Homogeneous 4-tuple, the Tup type of the missing geometry module.  The
Rust tuple components .0 .1 .2 .3 are the fields x y z w. -/
@[ext]
structure Tup where
  x : ℝ
  y : ℝ
  z : ℝ
  w : ℝ

/-- Modelled from the spec: a point is a tuple with w = 1. -/
def point (x y z : ℝ) : Tup := ⟨x, y, z, 1⟩

/-- Modelled from the spec: a vector is a tuple with w = 0. -/
def vector (x y z : ℝ) : Tup := ⟨x, y, z, 0⟩

/-- Modelled from the spec: componentwise tuple addition. -/
def Tup.add (a b : Tup) : Tup := ⟨a.x + b.x, a.y + b.y, a.z + b.z, a.w + b.w⟩

/-- Modelled from the spec: componentwise tuple subtraction. -/
def Tup.sub (a b : Tup) : Tup := ⟨a.x - b.x, a.y - b.y, a.z - b.z, a.w - b.w⟩

/-- Modelled from the spec: componentwise negation. -/
def Tup.neg (a : Tup) : Tup := ⟨-a.x, -a.y, -a.z, -a.w⟩

/-- Modelled from the spec: scalar multiplication. -/
def Tup.mul (a : Tup) (s : ℝ) : Tup := ⟨a.x * s, a.y * s, a.z * s, a.w * s⟩

/-- Modelled from the spec and the older geometry generation: the dot product
uses the three spatial components. -/
def Tup.dot (a b : Tup) : ℝ := a.x * b.x + a.y * b.y + a.z * b.z

/-- Modelled from the spec and the older geometry generation: length of the
spatial part. -/
def Tup.length (a : Tup) : ℝ := Real.sqrt (a.x * a.x + a.y * a.y + a.z * a.z)

/-- Modelled from the spec: normalization as a direction, dividing the spatial
components by the length and forcing w to 0. -/
def Tup.norm (a : Tup) : Tup :=
  ⟨a.x / a.length, a.y / a.length, a.z / a.length, 0⟩

/-- Modelled from the spec: reflection of a vector about a normal,
v - n * 2 * dot v n. -/
def Tup.reflect (v n : Tup) : Tup := v.sub (n.mul (2 * v.dot n))

/-- Colour from colour/colour.rs: three float channels. -/
@[ext]
structure Colour where
  red : ℝ
  green : ℝ
  blue : ℝ

def Colour.black : Colour := ⟨0, 0, 0⟩

def Colour.white : Colour := ⟨1, 1, 1⟩

/-- Componentwise colour addition. -/
def Colour.add (a b : Colour) : Colour :=
  ⟨a.red + b.red, a.green + b.green, a.blue + b.blue⟩

/-- Scalar multiplication of a colour. -/
def Colour.mul (a : Colour) (s : ℝ) : Colour :=
  ⟨a.red * s, a.green * s, a.blue * s⟩

/-- Componentwise colour multiplication. -/
def Colour.mulC (a b : Colour) : Colour :=
  ⟨a.red * b.red, a.green * b.green, a.blue * b.blue⟩

/-- Componentwise colour subtraction. -/
def Colour.sub (a b : Colour) : Colour :=
  ⟨a.red - b.red, a.green - b.green, a.blue - b.blue⟩

/-- A 4 x 4 matrix from matrix/matrix.rs, with entry mIJ at row I, column J.
The Rust type is a vector of row vectors of arbitrary size; every matrix the
renderer builds and every matrix appearing in the claims is 4 x 4, so the
embedding fixes that size and specializes the recursive cofactor expansion of
the source to it. -/
@[ext]
structure Matrix4 where
  m00 : ℝ
  m01 : ℝ
  m02 : ℝ
  m03 : ℝ
  m10 : ℝ
  m11 : ℝ
  m12 : ℝ
  m13 : ℝ
  m20 : ℝ
  m21 : ℝ
  m22 : ℝ
  m23 : ℝ
  m30 : ℝ
  m31 : ℝ
  m32 : ℝ
  m33 : ℝ

def Matrix4.ident : Matrix4 :=
  ⟨1, 0, 0, 0,
   0, 1, 0, 0,
   0, 0, 1, 0,
   0, 0, 0, 1⟩

def Matrix4.translation (x y z : ℝ) : Matrix4 :=
  ⟨1, 0, 0, x,
   0, 1, 0, y,
   0, 0, 1, z,
   0, 0, 0, 1⟩

def Matrix4.scaling (x y z : ℝ) : Matrix4 :=
  ⟨x, 0, 0, 0,
   0, y, 0, 0,
   0, 0, z, 0,
   0, 0, 0, 1⟩

def Matrix4.transpose (m : Matrix4) : Matrix4 :=
  ⟨m.m00, m.m10, m.m20, m.m30,
   m.m01, m.m11, m.m21, m.m31,
   m.m02, m.m12, m.m22, m.m32,
   m.m03, m.m13, m.m23, m.m33⟩

/-- Determinant of a 2 x 2 matrix: the base case of the recursive determinant
in matrix/matrix.rs. -/
def det2 (a b c d : ℝ) : ℝ := a * d - b * c

/-- Determinant of a 3 x 3 matrix by cofactor expansion along the first row,
as matrix/matrix.rs computes it for the 3 x 3 submatrices of a 4 x 4 matrix. -/
def det3 (a b c d e f g h i : ℝ) : ℝ :=
  a * det2 e f h i - b * det2 d f g i + c * det2 d e g h

/-- Determinant of a 4 x 4 matrix by cofactor expansion along the first row,
specializing Matrix::determinant. -/
def Matrix4.determinant (m : Matrix4) : ℝ :=
  m.m00 * det3 m.m11 m.m12 m.m13 m.m21 m.m22 m.m23 m.m31 m.m32 m.m33
  - m.m01 * det3 m.m10 m.m12 m.m13 m.m20 m.m22 m.m23 m.m30 m.m32 m.m33
  + m.m02 * det3 m.m10 m.m11 m.m13 m.m20 m.m21 m.m23 m.m30 m.m31 m.m33
  - m.m03 * det3 m.m10 m.m11 m.m12 m.m20 m.m21 m.m22 m.m30 m.m31 m.m32

/-- The matrix of cofactors computed inside Matrix::inverse: entry (i, j) is
the signed determinant of the submatrix obtained by deleting row i and
column j. -/
def Matrix4.cofactorMatrix (m : Matrix4) : Matrix4 :=
  ⟨det3 m.m11 m.m12 m.m13 m.m21 m.m22 m.m23 m.m31 m.m32 m.m33,
   -det3 m.m10 m.m12 m.m13 m.m20 m.m22 m.m23 m.m30 m.m32 m.m33,
   det3 m.m10 m.m11 m.m13 m.m20 m.m21 m.m23 m.m30 m.m31 m.m33,
   -det3 m.m10 m.m11 m.m12 m.m20 m.m21 m.m22 m.m30 m.m31 m.m32,
   -det3 m.m01 m.m02 m.m03 m.m21 m.m22 m.m23 m.m31 m.m32 m.m33,
   det3 m.m00 m.m02 m.m03 m.m20 m.m22 m.m23 m.m30 m.m32 m.m33,
   -det3 m.m00 m.m01 m.m03 m.m20 m.m21 m.m23 m.m30 m.m31 m.m33,
   det3 m.m00 m.m01 m.m02 m.m20 m.m21 m.m22 m.m30 m.m31 m.m32,
   det3 m.m01 m.m02 m.m03 m.m11 m.m12 m.m13 m.m31 m.m32 m.m33,
   -det3 m.m00 m.m02 m.m03 m.m10 m.m12 m.m13 m.m30 m.m32 m.m33,
   det3 m.m00 m.m01 m.m03 m.m10 m.m11 m.m13 m.m30 m.m31 m.m33,
   -det3 m.m00 m.m01 m.m02 m.m10 m.m11 m.m12 m.m30 m.m31 m.m32,
   -det3 m.m01 m.m02 m.m03 m.m11 m.m12 m.m13 m.m21 m.m22 m.m23,
   det3 m.m00 m.m02 m.m03 m.m10 m.m12 m.m13 m.m20 m.m22 m.m23,
   -det3 m.m00 m.m01 m.m03 m.m10 m.m11 m.m13 m.m20 m.m21 m.m23,
   det3 m.m00 m.m01 m.m02 m.m10 m.m11 m.m12 m.m20 m.m21 m.m22⟩

/-- Divide every entry of a matrix by a scalar, as the final step of
Matrix::inverse does. -/
def Matrix4.divAll (m : Matrix4) (d : ℝ) : Matrix4 :=
  ⟨m.m00 / d, m.m01 / d, m.m02 / d, m.m03 / d,
   m.m10 / d, m.m11 / d, m.m12 / d, m.m13 / d,
   m.m20 / d, m.m21 / d, m.m22 / d, m.m23 / d,
   m.m30 / d, m.m31 / d, m.m32 / d, m.m33 / d⟩

/-- Matrix::inverse: none exactly when the determinant is 0 (no epsilon),
otherwise the transposed cofactor matrix divided by the determinant. -/
def Matrix4.inverse (m : Matrix4) : Option Matrix4 :=
  if m.determinant = 0 then none
  else some (m.cofactorMatrix.transpose.divAll m.determinant)

/-- Matrix::mul_tup: multiply each row by the tuple. -/
def Matrix4.mulTup (m : Matrix4) (t : Tup) : Tup :=
  ⟨m.m00 * t.x + m.m01 * t.y + m.m02 * t.z + m.m03 * t.w,
   m.m10 * t.x + m.m11 * t.y + m.m12 * t.z + m.m13 * t.w,
   m.m20 * t.x + m.m21 * t.y + m.m22 * t.z + m.m23 * t.w,
   m.m30 * t.x + m.m31 * t.y + m.m32 * t.z + m.m33 * t.w⟩

/-- Ray from ray/ray.rs: origin and direction tuples. -/
@[ext]
structure Ray where
  origin : Tup
  direction : Tup

/-- Ray::position: direction scaled by t plus the origin. -/
def Ray.position (r : Ray) (t : ℝ) : Tup := (r.direction.mul t).add r.origin

/-- Ray::transform: apply a matrix to both origin and direction. -/
def Ray.transform (r : Ray) (m : Matrix4) : Ray :=
  ⟨m.mulTup r.origin, m.mulTup r.direction⟩

/-- Pattern variants from material/pattern.rs.  Each holds two colours and a
transform. -/
inductive Pattern where
  | stripe (a b : Colour) (transform : Matrix4)
  | gradient (a b : Colour) (transform : Matrix4)
  | ring (a b : Colour) (transform : Matrix4)
  | checker (a b : Colour) (transform : Matrix4)

def Pattern.transform : Pattern → Matrix4
  | .stripe _ _ t => t
  | .gradient _ _ t => t
  | .ring _ _ t => t
  | .checker _ _ t => t

/-- The pattern_at functions of material/pattern.rs.  The float remainder
tests of the source, of the form floorValue % 2.0 == 0.0, are modelled as the
integer parity test of the floor, which agrees with the float remainder
whenever the floor is an actual number.  Note that the Ring variant of the
source takes the square root of point.0 + point.2, with no squaring. -/
def Pattern.patternAt : Pattern → Tup → Colour
  | .stripe a b _, t => if (⌊t.x⌋ : ℤ) % 2 = 0 then a else b
  | .gradient a b _, t => a.add ((b.sub a).mul (t.x - ⌊t.x⌋))
  | .ring a b _, t => if (⌊Real.sqrt (t.x + t.z)⌋ : ℤ) % 2 = 0 then a else b
  | .checker a b _, t =>
      if ((⌊t.x⌋ : ℤ) + ⌊t.y⌋ + ⌊t.z⌋) % 2 = 0 then a else b

/-- TPattern::pattern_at_object: map the world point through the inverse of
the shape transform and then through the inverse of the pattern transform
before sampling.  The source method receives the shape itself but reads only
its transform, which the embedding passes directly. -/
def Pattern.patternAtObject (p : Pattern) (objTransform : Matrix4)
    (worldPoint : Tup) : Option Colour :=
  ((objTransform.inverse.map (fun m => m.mulTup worldPoint)).bind
    (fun o => p.transform.inverse.map (fun pm => pm.mulTup o))).map
    p.patternAt

/-- Material from material/material.rs. -/
structure Material where
  ambient : ℝ
  diffuse : ℝ
  specular : ℝ
  shininess : ℝ
  colour : Colour
  pattern : Option Pattern
  reflectivity : ℝ

/-- Material::default. -/
def Material.default : Material :=
  ⟨0.1, 0.9, 0.9, 200, Colour.white, none, 0⟩

/-- PointLight from light/light.rs. -/
structure PointLight where
  position : Tup
  intensity : Colour

/-- Shape variants.  The source dispatches through the TShape trait object;
the spec sanctions reimplementing the fixed shape set as a closed enum.  Each
shape owns a transform and a material. -/
inductive Shape where
  | sphere (transform : Matrix4) (material : Material)
  | plane (transform : Matrix4) (material : Material)

def Shape.transform : Shape → Matrix4
  | .sphere t _ => t
  | .plane t _ => t

def Shape.material : Shape → Material
  | .sphere _ m => m
  | .plane _ m => m

/-- Intersection from ray/ray.rs: a parameter t (the field at) and the shape
hit. -/
@[ext]
structure Intersection where
  at_ : ℝ
  object : Shape

/-- Material::lighting from material/material.rs, as a free function over the
closed shape enum.  In shadow the result is immediately black; otherwise the
Phong terms are computed, with diffuse and specular left black when the light
dot normal test fails, and the specular branch using powf modelled by
Real.rpow.  The source binds its subterms to local variables and assigns
diffuse and specular inside one conditional; the embedding writes the same
expressions in place, repeating the light-dot-normal condition for the two
assigned values. -/
def lighting (m : Material) (illumPoint : Tup) (light : PointLight)
    (eyeVec normVec : Tup) (inShadow : Bool) (object : Shape) : Colour :=
  if inShadow then Colour.black else
  ((((((m.pattern.bind
      (fun p => p.patternAtObject object.transform illumPoint)).getD
      m.colour).mulC light.intensity).mul m.ambient).add
    (if 0 ≤ (light.position.sub illumPoint).norm.dot normVec then
      (((((m.pattern.bind
        (fun p => p.patternAtObject object.transform illumPoint)).getD
        m.colour).mulC light.intensity).mul m.diffuse).mul
        ((light.position.sub illumPoint).norm.dot normVec))
     else Colour.black)).add
    (if 0 ≤ (light.position.sub illumPoint).norm.dot normVec then
      (if ((light.position.sub illumPoint).norm.neg.reflect normVec).dot
          eyeVec ≤ 0 then
        Colour.black
       else (light.intensity.mul m.specular).mul
         (Real.rpow
           (((light.position.sub illumPoint).norm.neg.reflect normVec).dot
             eyeVec)
           m.shininess))
     else Colour.black))

/-- The local normal of each shape in object space.  The plane case is
Plane::shape_normal_at from shapes/plane.rs.  Modelled from the spec for the
sphere: local point minus the origin-centered unit sphere center, as the
overridden normal_at in sphere.rs also computes. -/
def Shape.shapeNormalAt : Shape → Tup → Tup
  | .sphere _ _, p => p.sub (point 0 0 0)
  | .plane _ _, _ => vector 0 1 0

/-- The shape-specific local intersection routine.  The plane case is
Plane::shape_intersect from shapes/plane.rs: parallel rays (absolute y
direction at most 0.00001) give no intersection, otherwise the single root
t = -origin.y / direction.y.  Modelled from the spec for the sphere: solve
the quadratic from ray-origin-to-center geometry, no intersection for a
negative discriminant, both roots otherwise (sphere.rs keeps this routine
only as commented-out code). -/
def Shape.shapeIntersect (s : Shape) (ray : Ray) : List Intersection :=
  match s with
  | .plane _ _ =>
      if |ray.direction.y| ≤ 0.00001 then []
      else [⟨-ray.origin.y / ray.direction.y, s⟩]
  | .sphere _ _ =>
      let shapeToRay := ray.origin.sub (point 0 0 0)
      let a := ray.direction.dot ray.direction
      let b := ray.direction.dot shapeToRay * 2
      let c := shapeToRay.dot shapeToRay - 1
      let discriminant := b * b - 4 * a * c
      if discriminant < 0 then []
      else [⟨(-b - Real.sqrt discriminant) / (2 * a), s⟩,
            ⟨(-b + Real.sqrt discriminant) / (2 * a), s⟩]

/-- TShape::normal_at from shapes/shape.rs: map the world point to object
space through the inverse transform, take the shape-specific local normal,
push it through the inverse of the transposed transform, zero the w component
and normalize. -/
def Shape.normalAt (s : Shape) (worldPoint : Tup) : Option Tup :=
  let maybeLocalNormal :=
    (s.transform.inverse.map (fun m => m.mulTup worldPoint)).map
      s.shapeNormalAt
  let worldNormal := maybeLocalNormal.bind
    (fun objectNorm =>
      s.transform.transpose.inverse.map (fun p => p.mulTup objectNorm))
  worldNormal.map (fun p => (Tup.mk p.x p.y p.z 0).norm)

/-- TShape::intersect from shapes/shape.rs: transform the ray by the inverse
of the shape transform and delegate to the local routine; a singular
transform gives the empty list. -/
def Shape.intersect (s : Shape) (ray : Ray) : List Intersection :=
  match s.transform.inverse with
  | some shapeTransform => s.shapeIntersect (ray.transform shapeTransform)
  | none => []

/-- The hit function of the Hit trait in ray/ray.rs: keep the intersections
with t strictly positive, sort them by t and return the first, if any. -/
def hit (xs : List Intersection) : Option Intersection :=
  if xs.isEmpty then none
  else if (xs.filter (fun i => decide (0 < i.at_))).isEmpty then none
  else ((xs.filter (fun i => decide (0 < i.at_))).mergeSort
    (fun a b => decide (a.at_ ≤ b.at_))).head?

/-- Ray::intersect_objects: intersect every shape, concatenate and sort by t
(the source sorts with total_cmp, a stable ascending sort). -/
def Ray.intersectObjects (r : Ray) (shapes : List Shape) : List Intersection :=
  (shapes.flatMap (fun o => o.intersect r)).mergeSort
    (fun a b => decide (a.at_ ≤ b.at_))

/-- PreComp from ray/ray.rs: the precomputed shading state. -/
@[ext]
structure PreComp where
  object : Shape
  point : Tup
  overPoint : Tup
  eyeV : Tup
  normV : Tup
  inside : Bool
  reflectV : Tup
  n1 : ℝ
  n2 : ℝ

/-- Ray::prep_comps as called from world.rs.  The snapshot only contains
Ray::prep_comp, whose extra intersection-list argument is unused; the body
below is that function: position at t, negated direction as the eye vector,
shape normal (none on a singular transform), normal inversion when the hit is
inside, the over point nudged by 0.00001 along the resulting normal, and the
reflection of the ray direction about the negated original normal. -/
def Ray.prepComps (r : Ray) (i : Intersection) : Option PreComp :=
  (i.object.normalAt (r.position i.at_)).map (fun normV =>
    { object := i.object
      point := r.position i.at_
      overPoint := (r.position i.at_).add
        ((if normV.dot r.direction.neg < 0 then normV.neg else normV).mul
          0.00001)
      eyeV := r.direction.neg
      normV := if normV.dot r.direction.neg < 0 then normV.neg else normV
      inside := decide (normV.dot r.direction.neg < 0)
      reflectV := r.direction.reflect normV.neg
      n1 := 1.1
      n2 := 1.2 })

/-- PreComp::shade_hit: delegate to the lighting function of the material of
the hit object. -/
def PreComp.shadeHit (pc : PreComp) (lightSource : PointLight)
    (isShadow : Bool) : Colour :=
  lighting pc.object.material pc.point lightSource pc.eyeV pc.normV isShadow
    pc.object

/-- World from world/world.rs: a list of shapes and one point light. -/
structure World where
  objects : List Shape
  light : PointLight

/-- World::is_shadowed: cast a ray from the point toward the light and report
whether some hit lies strictly closer than the light. -/
def World.isShadowed (w : World) (pt : Tup) : Bool :=
  ((hit ((Ray.mk pt (w.light.position.sub pt).norm).intersectObjects
    w.objects)).map
    (fun h => decide (h.at_ < (w.light.position.sub pt).length))).getD false

/-- The body of World::reflected_colour, abstracted over the recursive
color_at call it makes: black when the limit is 0, when there is no
precomputation or when the material is not reflective, otherwise the
recursive colour along the reflection ray scaled by the reflectivity.  The
none value of the recursive call (a panic) is propagated. -/
def reflectedColourGo (recur : Ray → Option Colour) (comps : Option PreComp)
    (refLim : ℕ) : Option Colour :=
  if refLim = 0 then some Colour.black
  else
    match comps with
    | some comps =>
        if comps.object.material.reflectivity = 0 then some Colour.black
        else
          (recur (Ray.mk comps.overPoint comps.reflectV)).map
            (fun colour => colour.mul comps.object.material.reflectivity)
    | none => some Colour.black

/-- The body of World::color_at on a positive counter, abstracted over the
recursive call and taking the already decremented counter: select the
nearest hit, precompute the shading state, return black immediately when the
over point is shadowed, and otherwise add the reflected contribution to the
surface colour (black when there was no hit).  The shadow flag passed on to
shade_hit is written as the literal false because the source reaches that
call only after the early return on a shadowed point. -/
def World.colorAtBody (w : World) (recur : Ray → Option Colour) (ray : Ray)
    (decremented : ℕ) : Option Colour :=
  if (((hit (ray.intersectObjects w.objects)).bind ray.prepComps).map
      (fun pc => w.isShadowed pc.overPoint)).getD false then some Colour.black
  else
    match reflectedColourGo recur
        ((hit (ray.intersectObjects w.objects)).bind ray.prepComps)
        decremented with
    | none => none
    | some reflected =>
        some (((((hit (ray.intersectObjects w.objects)).bind
          ray.prepComps).map
          (fun pc => pc.shadeHit w.light false)).map
          (fun s => s.add reflected)).getD Colour.black)

/-- World::color_at with the u32 reflection counter modelled as a Nat.  The
shadowed early return of the source comes before the unconditional
ref_lim - 1 that builds the reflected-colour argument, so on the counter
value 0 a shadowed nearest hit still returns black normally, while every
evaluation that passes the shadow test (an unshadowed hit, or no hit at all)
reaches the u32 subtraction and underflows it, which a Rust debug build
reports as a panic, modelled here as the none result.  On a positive counter
the code runs colorAtBody with the decremented counter. -/
def World.colorAt (w : World) : Ray → ℕ → Option Colour
  | ray, 0 =>
      if (((hit (ray.intersectObjects w.objects)).bind ray.prepComps).map
          (fun pc => w.isShadowed pc.overPoint)).getD false then
        some Colour.black
      else none
  | ray, n + 1 => w.colorAtBody (fun r => w.colorAt r n) ray n

/-- World::reflected_colour: the recursive call passes the already
decremented limit through unchanged. -/
def World.reflectedColour (w : World) (comps : Option PreComp)
    (refLim : ℕ) : Option Colour :=
  reflectedColourGo (fun r => w.colorAt r refLim) comps refLim

/-- The body of the call-depth count below on a positive counter, abstracted
over the recursive count: one plus the recursive count exactly when the
unshadowed reflective branch with a nonzero decremented counter recurses. -/
def World.colorAtCallsBody (w : World) (recur : Ray → ℕ) (ray : Ray)
    (decremented : ℕ) : ℕ :=
  if (((hit (ray.intersectObjects w.objects)).bind ray.prepComps).map
      (fun pc => w.isShadowed pc.overPoint)).getD false then 0
  else
    match (hit (ray.intersectObjects w.objects)).bind ray.prepComps with
    | none => 0
    | some comps =>
        if decremented = 0 then 0
        else if comps.object.material.reflectivity = 0 then 0
        else 1 + recur (Ray.mk comps.overPoint comps.reflectV)

/-- The depth of nested recursive color_at calls that World::color_at
performs, following exactly the branch structure of colorAt. -/
def World.colorAtCalls (w : World) : Ray → ℕ → ℕ
  | _, 0 => 0
  | ray, n + 1 => w.colorAtCallsBody (fun r => w.colorAtCalls r n) ray n

/-- Canvas from canvas/canvas.rs: a height-indexed list of width-indexed
pixel rows. -/
structure Canvas where
  width : ℕ
  height : ℕ
  pixels : List (List Colour)

/-- Canvas::new: every pixel starts as the default black colour. -/
def Canvas.new (width height : ℕ) : Canvas :=
  ⟨width, height, List.replicate height (List.replicate width Colour.black)⟩

/-- Canvas::get_pixel: none outside the bounds. -/
def Canvas.getPixel (c : Canvas) (x y : ℕ) : Option Colour :=
  if x ≥ c.width ∨ y ≥ c.height then none
  else some ((c.pixels.getD y []).getD x Colour.black)

/-- Canvas::set_pixel: out-of-bounds writes only log and leave the canvas
unchanged. -/
def Canvas.setPixel (c : Canvas) (x y : ℕ) (colour : Colour) : Canvas :=
  if x ≥ c.width ∨ y ≥ c.height then c
  else ⟨c.width, c.height,
    c.pixels.set y ((c.pixels.getD y []).set x colour)⟩

/-- Camera from camera/camera.rs. -/
structure Camera where
  hSize : ℕ
  vSize : ℕ
  fov : ℝ
  halfWidth : ℝ
  halfHeight : ℝ
  transform : Matrix4
  pxSize : ℝ

/-- Camera::ray_for_pixel: world-space pixel offset from the canvas center,
both the pixel point and the camera origin pushed through the inverse camera
transform, and the normalized direction between them; none when the camera
transform is singular. -/
def Camera.rayForPixel (c : Camera) (x y : ℝ) : Option Ray :=
  let xOffset := (x + 0.5) * c.pxSize
  let yOffset := (y + 0.5) * c.pxSize
  let worldX := c.halfWidth - xOffset
  let worldY := c.halfHeight - yOffset
  let maybePx := c.transform.inverse.map
    (fun m => m.mulTup (point worldX worldY (-1)))
  let maybeOrig := c.transform.inverse.map (fun m => m.mulTup (point 0 0 0))
  (maybePx.bind (fun px => maybeOrig.map (fun orig => (px.sub orig).norm))).bind
    (fun dir => maybeOrig.map (fun orig => Ray.mk orig dir))

/-- Camera::render: for every pixel compute its ray and its colour through
World::color_at and write the successful results into a fresh canvas.  The
rayon parallel loop of the source writes each pixel independently and is
modelled as a sequential fold over the same pixel set.  The snapshot calls a
one-argument color_at; the depth budget the evolved code threads through is
taken as an explicit argument here (Modelled from the spec, section 4.4). -/
def Camera.render (c : Camera) (w : World) (refLim : ℕ) : Canvas :=
  let colours : List (Option (ℕ × ℕ × Colour)) :=
    (List.range c.vSize).flatMap (fun (y : ℕ) =>
      (List.range c.hSize).map (fun (x : ℕ) =>
        ((c.rayForPixel (x : ℝ) (y : ℝ)).bind (fun r => w.colorAt r refLim)).map
          (fun col => (x, y, col))))
  colours.foldl
    (fun canvas item =>
      match item with
      | some (x, y, col) => canvas.setPixel x y col
      | none => canvas)
    (Canvas.new c.hSize c.vSize)

/-- The comparison used by hit and intersect_objects is transitive. -/
lemma intersectLe_trans : ∀ a b c : Intersection,
    decide (a.at_ ≤ b.at_) = true → decide (b.at_ ≤ c.at_) = true →
    decide (a.at_ ≤ c.at_) = true := by
  intro a b c hab hbc
  simp only [decide_eq_true_eq] at *
  exact le_trans hab hbc

/-- The comparison used by hit and intersect_objects is total. -/
lemma intersectLe_total : ∀ a b : Intersection,
    (decide (a.at_ ≤ b.at_) || decide (b.at_ ≤ a.at_)) = true := by
  intro a b
  rcases le_total a.at_ b.at_ with h | h <;> simp [h]

/-- Sorting a list of intersections by t yields a list that is pairwise
nondecreasing in t. -/
lemma mergeSort_at_sorted (l : List Intersection) :
    List.Pairwise (fun a b => a.at_ ≤ b.at_)
      (l.mergeSort (fun a b => decide (a.at_ ≤ b.at_))) := by
  have h := List.sorted_mergeSort intersectLe_trans intersectLe_total l
  exact h.imp (by intro a b hab; simpa using hab)

/-- hit returns none on a list whose members all have nonpositive t. -/
lemma hit_eq_none (xs : List Intersection) (h : ∀ i ∈ xs, i.at_ ≤ 0) :
    hit xs = none := by
  unfold hit
  by_cases hxe : xs.isEmpty
  · simp [hxe]
  · have hpos : xs.filter (fun i => decide (0 < i.at_)) = [] := by
      rw [List.filter_eq_nil_iff]
      intro i hi
      simp only [decide_eq_true_eq, not_lt]
      exact h i hi
    simp [hxe, hpos]

/-- Whatever hit returns is a member of the list, has positive t, and has
minimal t among the members with positive t. -/
lemma hit_some_spec (xs : List Intersection) (i : Intersection)
    (h : hit xs = some i) :
    i ∈ xs ∧ 0 < i.at_ ∧ ∀ j ∈ xs, 0 < j.at_ → i.at_ ≤ j.at_ := by
  unfold hit at h
  by_cases hxe : xs.isEmpty
  · simp [hxe] at h
  · simp only [hxe, if_false] at h
    by_cases hpe : (xs.filter (fun i => decide (0 < i.at_))).isEmpty
    · simp [hpe] at h
    · simp only [hpe, if_false] at h
      have hperm :
          ((xs.filter (fun i => decide (0 < i.at_))).mergeSort
            (fun a b => decide (a.at_ ≤ b.at_))).Perm
            (xs.filter (fun i => decide (0 < i.at_))) :=
        List.mergeSort_perm _ _
      obtain ⟨tl, hsrt⟩ : ∃ tl,
          (xs.filter (fun i => decide (0 < i.at_))).mergeSort
            (fun a b => decide (a.at_ ≤ b.at_)) = i :: tl := by
        cases hc : (xs.filter (fun i => decide (0 < i.at_))).mergeSort
            (fun a b => decide (a.at_ ≤ b.at_)) with
        | nil => rw [hc] at h; simp at h
        | cons a tl =>
            rw [hc] at h
            simp at h
            exact ⟨tl, by rw [h]⟩
      have hmemfil : i ∈ xs.filter (fun i => decide (0 < i.at_)) := by
        rw [← hperm.mem_iff, hsrt]
        exact List.mem_cons_self _ _
      obtain ⟨hmemxs, hposdec⟩ := List.mem_filter.mp hmemfil
      have hpos : 0 < i.at_ := by simpa using hposdec
      refine ⟨hmemxs, hpos, ?_⟩
      intro j hj hjpos
      have hjfil : j ∈ xs.filter (fun i => decide (0 < i.at_)) :=
        List.mem_filter.mpr ⟨hj, by simpa using hjpos⟩
      have hjsrt : j ∈ i :: tl := by
        rw [← hsrt, hperm.mem_iff]
        exact hjfil
      rcases List.mem_cons.mp hjsrt with rfl | hjtl
      · exact le_refl _
      · have hsorted := mergeSort_at_sorted
          (xs.filter (fun i => decide (0 < i.at_)))
        rw [hsrt] at hsorted
        exact List.rel_of_pairwise_cons hsorted hjtl

/-- hit returns a value as soon as the list has a member with positive t. -/
lemma hit_isSome (xs : List Intersection) (j : Intersection) (hj : j ∈ xs)
    (hjpos : 0 < j.at_) : ∃ i, hit xs = some i := by
  unfold hit
  have hxne : xs ≠ [] := by
    intro hnil
    rw [hnil] at hj
    simp at hj
  have hxe : xs.isEmpty = false := List.isEmpty_eq_false.mpr hxne
  have hjfil : j ∈ xs.filter (fun i => decide (0 < i.at_)) :=
    List.mem_filter.mpr ⟨hj, by simpa using hjpos⟩
  have hfne : xs.filter (fun i => decide (0 < i.at_)) ≠ [] := by
    intro hnil
    rw [hnil] at hjfil
    simp at hjfil
  have hpe : (xs.filter (fun i => decide (0 < i.at_))).isEmpty = false :=
    List.isEmpty_eq_false.mpr hfne
  have hsne : (xs.filter (fun i => decide (0 < i.at_))).mergeSort
      (fun a b => decide (a.at_ ≤ b.at_)) ≠ [] := by
    intro hnil
    have hp := List.mergeSort_perm (xs.filter (fun i => decide (0 < i.at_)))
      (fun a b => decide (a.at_ ≤ b.at_))
    rw [hnil] at hp
    exact hfne (List.perm_nil.mp hp.symm)
  cases hc : (xs.filter (fun i => decide (0 < i.at_))).mergeSort
      (fun a b => decide (a.at_ ≤ b.at_)) with
  | nil => exact absurd hc hsne
  | cons a tl =>
      refine ⟨a, ?_⟩
      simp [hxe, hpe, hc]

/-- hit is determined by a strict minimality certificate: a member with
positive t below every other positive member. -/
lemma hit_eq_some (xs : List Intersection) (i : Intersection) (hmem : i ∈ xs)
    (hpos : 0 < i.at_)
    (hmin : ∀ j ∈ xs, 0 < j.at_ → j = i ∨ i.at_ < j.at_) :
    hit xs = some i := by
  obtain ⟨h, hh⟩ := hit_isSome xs i hmem hpos
  obtain ⟨hhmem, hhpos, hhmin⟩ := hit_some_spec xs h hh
  rcases hmin h hhmem hhpos with rfl | hlt
  · exact hh
  · exact absurd (hhmin i hmem hpos) (not_le.mpr hlt)

/-- intersect_objects permutes the concatenation of the per-shape
intersection lists. -/
lemma intersectObjects_perm (r : Ray) (os : List Shape) :
    (r.intersectObjects os).Perm (os.flatMap (fun o => o.intersect r)) :=
  List.mergeSort_perm _ _

/-- intersect_objects is sorted by nondecreasing t. -/
lemma intersectObjects_sorted (r : Ray) (os : List Shape) :
    List.Pairwise (fun a b => a.at_ ≤ b.at_) (r.intersectObjects os) :=
  mergeSort_at_sorted _

/-- Transfer a hit certificate through the sorting of intersect_objects. -/
lemma hit_intersectObjects_eq (r : Ray) (os : List Shape) (i : Intersection)
    (hmem : i ∈ os.flatMap (fun o => o.intersect r)) (hpos : 0 < i.at_)
    (hmin : ∀ j ∈ os.flatMap (fun o => o.intersect r), 0 < j.at_ →
      j = i ∨ i.at_ < j.at_) :
    hit (r.intersectObjects os) = some i := by
  apply hit_eq_some
  · exact (intersectObjects_perm r os).mem_iff.mpr hmem
  · exact hpos
  · intro j hj
    exact hmin j ((intersectObjects_perm r os).mem_iff.mp hj)

/-- Transfer an all-nonpositive certificate through the sorting of
intersect_objects. -/
lemma hit_intersectObjects_none (r : Ray) (os : List Shape)
    (h : ∀ j ∈ os.flatMap (fun o => o.intersect r), j.at_ ≤ 0) :
    hit (r.intersectObjects os) = none := by
  apply hit_eq_none
  intro j hj
  exact h j ((intersectObjects_perm r os).mem_iff.mp hj)

/-- reflected_colour produces a value whenever its recursive color_at call
does. -/
lemma reflectedColourGo_isSome (recur : Ray → Option Colour)
    (hrec : ∀ r, ∃ c, recur r = some c) (comps : Option PreComp) (k : ℕ) :
    ∃ c, reflectedColourGo recur comps k = some c := by
  unfold reflectedColourGo
  by_cases hk : k = 0
  · simp [hk]
  · simp only [hk, if_false]
    match comps with
    | none => exact ⟨_, rfl⟩
    | some pc =>
      by_cases hrefl : pc.object.material.reflectivity = 0
      · simp [hrefl]
      · obtain ⟨c, hc⟩ := hrec (Ray.mk pc.overPoint pc.reflectV)
        refine ⟨c.mul pc.object.material.reflectivity, ?_⟩
        simp [hrefl, hc]

/-- color_at returns a colour for every positive depth budget. -/
lemma colorAt_isSome (w : World) :
    ∀ (n : ℕ) (r : Ray), 1 ≤ n → ∃ c, w.colorAt r n = some c := by
  intro n
  induction n with
  | zero => intro r h; omega
  | succ m ih =>
      intro r _
      show ∃ c, w.colorAtBody (fun ray => w.colorAt ray m) r m = some c
      simp only [World.colorAtBody]
      have hgo : ∃ c, reflectedColourGo (fun ray => w.colorAt ray m)
          ((hit (r.intersectObjects w.objects)).bind r.prepComps) m =
          some c := by
        by_cases hm : m = 0
        · subst hm
          exact ⟨Colour.black, rfl⟩
        · exact reflectedColourGo_isSome _ (fun ray => ih ray (by omega)) _ m
      obtain ⟨c, hc⟩ := hgo
      rw [hc]
      split
      · exact ⟨_, rfl⟩
      · exact ⟨_, rfl⟩

/-- reflected_colour always produces a value at a positive limit. -/
lemma reflectedColour_isSome (w : World) (comps : Option PreComp) (k : ℕ) :
    ∃ c, w.reflectedColour comps k = some c := by
  unfold World.reflectedColour
  by_cases hk : k = 0
  · subst hk
    exact ⟨Colour.black, rfl⟩
  · exact reflectedColourGo_isSome _
      (fun ray => colorAt_isSome w k ray (by omega)) _ _

/-- The nesting of recursive color_at calls never exceeds the depth budget. -/
lemma colorAtCalls_le (w : World) :
    ∀ (n : ℕ) (r : Ray), w.colorAtCalls r n ≤ n := by
  intro n
  induction n with
  | zero => intro r; simp [World.colorAtCalls]
  | succ m ih =>
      intro r
      show w.colorAtCallsBody (fun ray => w.colorAtCalls ray m) r m ≤ m + 1
      unfold World.colorAtCallsBody
      split
      · omega
      · cases hpc : (hit (r.intersectObjects w.objects)).bind r.prepComps with
        | none => exact Nat.zero_le _
        | some comps =>
            show (if m = 0 then 0
              else if comps.object.material.reflectivity = 0 then 0
              else 1 + w.colorAtCalls (Ray.mk comps.overPoint comps.reflectV)
                m) ≤ m + 1
            split
            · omega
            · split
              · omega
              · have := ih (Ray.mk comps.overPoint comps.reflectV)
                omega

/-- A tuple with a nonzero spatial part normalizes to a unit-length tuple. -/
lemma Tup.norm_length_eq_one (t : Tup)
    (h : ¬(t.x = 0 ∧ t.y = 0 ∧ t.z = 0)) : t.norm.length = 1 := by
  have hS : 0 < t.x * t.x + t.y * t.y + t.z * t.z := by
    have hx2 : 0 ≤ t.x * t.x := mul_self_nonneg _
    have hy2 : 0 ≤ t.y * t.y := mul_self_nonneg _
    have hz2 : 0 ≤ t.z * t.z := mul_self_nonneg _
    rcases (by tauto : t.x ≠ 0 ∨ t.y ≠ 0 ∨ t.z ≠ 0) with hx | hy | hz
    · nlinarith [mul_self_pos.mpr hx]
    · nlinarith [mul_self_pos.mpr hy]
    · nlinarith [mul_self_pos.mpr hz]
  have hLpos : 0 < t.length := Real.sqrt_pos.mpr hS
  have hL2 : t.length ^ 2 = t.x * t.x + t.y * t.y + t.z * t.z := by
    unfold Tup.length
    rw [Real.sq_sqrt hS.le]
  have hsum : t.x / t.length * (t.x / t.length) +
      t.y / t.length * (t.y / t.length) +
      t.z / t.length * (t.z / t.length) = 1 := by
    field_simp
    nlinarith [hL2]
  have hrfl : t.norm.length = Real.sqrt (t.x / t.length * (t.x / t.length) +
      t.y / t.length * (t.y / t.length) +
      t.z / t.length * (t.z / t.length)) := rfl
  rw [hrfl, hsum, Real.sqrt_one]

/-- The cofactor-expansion determinant is invariant under transposition. -/
lemma Matrix4.determinant_transpose (m : Matrix4) :
    m.transpose.determinant = m.determinant := by
  simp only [Matrix4.transpose, Matrix4.determinant, det3, det2]
  ring

/-- The inverse exists exactly on a nonzero determinant. -/
lemma Matrix4.inverse_isSome_iff (m : Matrix4) :
    (∃ mi, m.inverse = some mi) ↔ m.determinant ≠ 0 := by
  unfold Matrix4.inverse
  by_cases h : m.determinant = 0
  · simp [h]
  · simp [h]

/-- A known inverse turns the dispatch of TShape::intersect into the local
routine on the transformed ray. -/
lemma Shape.intersect_eval (s : Shape) (r : Ray) (mi : Matrix4)
    (h : s.transform.inverse = some mi) :
    s.intersect r = s.shapeIntersect (r.transform mi) := by
  rw [Shape.intersect, h]

/-- Plane local intersection on a parallel ray. -/
lemma plane_shapeIntersect_parallel (t : Matrix4) (mat : Material) (r : Ray)
    (h : |r.direction.y| ≤ 0.00001) :
    (Shape.plane t mat).shapeIntersect r = [] := by
  simp [Shape.shapeIntersect, h]

/-- Plane local intersection on a non-parallel ray. -/
lemma plane_shapeIntersect_hit (t : Matrix4) (mat : Material) (r : Ray)
    (h : ¬(|r.direction.y| ≤ 0.00001)) :
    (Shape.plane t mat).shapeIntersect r =
      [⟨-r.origin.y / r.direction.y, Shape.plane t mat⟩] := by
  simp [Shape.shapeIntersect, h]

/-- Sphere local intersection on a ray with negative discriminant. -/
lemma sphere_shapeIntersect_miss (t : Matrix4) (mat : Material) (r : Ray)
    (h : r.direction.dot (r.origin.sub (point 0 0 0)) * 2 *
        (r.direction.dot (r.origin.sub (point 0 0 0)) * 2) -
        4 * (r.direction.dot r.direction) *
        ((r.origin.sub (point 0 0 0)).dot (r.origin.sub (point 0 0 0)) - 1) <
        0) :
    (Shape.sphere t mat).shapeIntersect r = [] := by
  simp only [Shape.shapeIntersect, if_pos h]

/-- Sphere local intersection on a ray with nonnegative discriminant. -/
lemma sphere_shapeIntersect_hit (t : Matrix4) (mat : Material) (r : Ray)
    (h : ¬(r.direction.dot (r.origin.sub (point 0 0 0)) * 2 *
        (r.direction.dot (r.origin.sub (point 0 0 0)) * 2) -
        4 * (r.direction.dot r.direction) *
        ((r.origin.sub (point 0 0 0)).dot (r.origin.sub (point 0 0 0)) - 1) <
        0)) :
    (Shape.sphere t mat).shapeIntersect r =
      [⟨(-(r.direction.dot (r.origin.sub (point 0 0 0)) * 2) -
          Real.sqrt (r.direction.dot (r.origin.sub (point 0 0 0)) * 2 *
            (r.direction.dot (r.origin.sub (point 0 0 0)) * 2) -
            4 * (r.direction.dot r.direction) *
            ((r.origin.sub (point 0 0 0)).dot
              (r.origin.sub (point 0 0 0)) - 1))) /
          (2 * (r.direction.dot r.direction)), Shape.sphere t mat⟩,
       ⟨(-(r.direction.dot (r.origin.sub (point 0 0 0)) * 2) +
          Real.sqrt (r.direction.dot (r.origin.sub (point 0 0 0)) * 2 *
            (r.direction.dot (r.origin.sub (point 0 0 0)) * 2) -
            4 * (r.direction.dot r.direction) *
            ((r.origin.sub (point 0 0 0)).dot
              (r.origin.sub (point 0 0 0)) - 1))) /
          (2 * (r.direction.dot r.direction)), Shape.sphere t mat⟩] := by
  simp only [Shape.shapeIntersect, if_neg h]

/-
The concrete scene used to separate World::color_at from the specified
surface-plus-reflection sum.  A vertical reflective mirror plane occupies the
plane x = 0 (the plane y = 0 rotated a quarter turn about z), the floor plane
y = 0 is matte with ambient 1 and red colour, and a unit sphere translated to
(12, 6, 0) blocks the light at (25, 6, 0) from the mirror hit point (0, 6, 0)
without obstructing the floor point (8 + bias, 0, 0) that the reflected ray
reaches.
-/

def matMirror : Material := ⟨0.1, 0.9, 0.9, 200, Colour.white, none, 0.5⟩

def matFloor : Material := ⟨1, 0, 0, 200, ⟨1, 0, 0⟩, none, 0⟩

def mirrorTransform : Matrix4 :=
  ⟨0, 1, 0, 0,
   -1, 0, 0, 0,
   0, 0, 1, 0,
   0, 0, 0, 1⟩

def mirrorTransformInv : Matrix4 :=
  ⟨0, -1, 0, 0,
   1, 0, 0, 0,
   0, 0, 1, 0,
   0, 0, 0, 1⟩

def mirrorShape : Shape := .plane mirrorTransform matMirror

def floorShape : Shape := .plane Matrix4.ident matFloor

def blockerShape : Shape := .sphere (Matrix4.translation 12 6 0)
  Material.default

def exLight : PointLight := ⟨point 25 6 0, Colour.white⟩

def exWorld : World := ⟨[mirrorShape, floorShape, blockerShape], exLight⟩

def exRay : Ray := ⟨point 4 9 0, vector (-4 / 5) (-3 / 5) 0⟩

lemma ident_inverse : Matrix4.ident.inverse = some Matrix4.ident := by
  rw [Matrix4.inverse,
    if_neg (by norm_num [Matrix4.ident, Matrix4.determinant, det3, det2])]
  congr 1
  ext <;>
    norm_num [Matrix4.ident, Matrix4.cofactorMatrix, Matrix4.transpose,
      Matrix4.divAll, Matrix4.determinant, det3, det2]

lemma ident_transpose : Matrix4.ident.transpose = Matrix4.ident := by
  ext <;> norm_num [Matrix4.ident, Matrix4.transpose]

lemma mirrorTransform_inverse :
    mirrorTransform.inverse = some mirrorTransformInv := by
  rw [Matrix4.inverse,
    if_neg (by norm_num [mirrorTransform, Matrix4.determinant, det3, det2])]
  congr 1
  ext <;>
    norm_num [mirrorTransform, mirrorTransformInv, Matrix4.cofactorMatrix,
      Matrix4.transpose, Matrix4.divAll, Matrix4.determinant, det3, det2]

lemma mirrorTransform_transpose_inverse :
    mirrorTransform.transpose.inverse = some mirrorTransform := by
  rw [Matrix4.inverse,
    if_neg (by norm_num [mirrorTransform, Matrix4.transpose,
      Matrix4.determinant, det3, det2])]
  congr 1
  ext <;>
    norm_num [mirrorTransform, Matrix4.cofactorMatrix,
      Matrix4.transpose, Matrix4.divAll, Matrix4.determinant, det3, det2]

lemma translation_12_6_0_inverse :
    (Matrix4.translation 12 6 0).inverse =
      some (Matrix4.translation (-12) (-6) 0) := by
  rw [Matrix4.inverse,
    if_neg (by norm_num [Matrix4.translation, Matrix4.determinant, det3,
      det2])]
  congr 1
  ext <;>
    norm_num [Matrix4.translation, Matrix4.cofactorMatrix, Matrix4.transpose,
      Matrix4.divAll, Matrix4.determinant, det3, det2]


/-- The precomputed shading state at the mirror hit of the example ray. -/
def pcF : PreComp :=
  ⟨mirrorShape, point 0 6 0, ⟨0.00001, 6, 0, 1⟩, ⟨4 / 5, 3 / 5, 0, 0⟩,
   ⟨1, 0, 0, 0⟩, false, ⟨4 / 5, -3 / 5, 0, 0⟩, 1.1, 1.2⟩

/-- The reflection ray leaving the mirror hit of the example ray. -/
def reflRay : Ray := ⟨⟨0.00001, 6, 0, 1⟩, ⟨4 / 5, -3 / 5, 0, 0⟩⟩

/-- The precomputed shading state at the floor hit of the reflection ray. -/
def pcW : PreComp :=
  ⟨floorShape, ⟨8 + 0.00001, 0, 0, 1⟩, ⟨8 + 0.00001, 0.00001, 0, 1⟩,
   ⟨-(4 / 5), 3 / 5, 0, 0⟩, ⟨0, 1, 0, 0⟩, false, ⟨4 / 5, 3 / 5, 0, 0⟩,
   1.1, 1.2⟩

lemma mirror_intersect_exRay :
    mirrorShape.intersect exRay = [⟨5, mirrorShape⟩] := by
  rw [Shape.intersect_eval mirrorShape exRay mirrorTransformInv
    mirrorTransform_inverse]
  have htr : exRay.transform mirrorTransformInv =
      ⟨⟨-9, 4, 0, 1⟩, ⟨3 / 5, -(4 / 5), 0, 0⟩⟩ := by
    unfold Ray.transform Matrix4.mulTup exRay mirrorTransformInv point vector
    ext <;> norm_num
  rw [htr, show mirrorShape = Shape.plane mirrorTransform matMirror from rfl,
    plane_shapeIntersect_hit _ _ _ (by
      rw [show ((⟨⟨-9, 4, 0, 1⟩, ⟨3 / 5, -(4 / 5), 0, 0⟩⟩ : Ray)).direction.y
          = -(4 / 5) from rfl,
        abs_neg, abs_of_pos (by norm_num : (0:ℝ) < 4 / 5)]
      norm_num)]
  norm_num

lemma floor_intersect_exRay :
    floorShape.intersect exRay = [⟨15, floorShape⟩] := by
  rw [Shape.intersect_eval floorShape exRay Matrix4.ident ident_inverse]
  have htr : exRay.transform Matrix4.ident =
      ⟨⟨4, 9, 0, 1⟩, ⟨-(4 / 5), -(3 / 5), 0, 0⟩⟩ := by
    unfold Ray.transform Matrix4.mulTup exRay Matrix4.ident point vector
    ext <;> norm_num
  rw [htr, show floorShape = Shape.plane Matrix4.ident matFloor from rfl,
    plane_shapeIntersect_hit _ _ _ (by
      rw [show ((⟨⟨4, 9, 0, 1⟩, ⟨-(4 / 5), -(3 / 5), 0, 0⟩⟩ : Ray)).direction.y
          = -(3 / 5) from rfl,
        abs_neg, abs_of_pos (by norm_num : (0:ℝ) < 3 / 5)]
      norm_num)]
  norm_num

lemma blocker_intersect_exRay : blockerShape.intersect exRay = [] := by
  rw [Shape.intersect_eval blockerShape exRay
    (Matrix4.translation (-12) (-6) 0) translation_12_6_0_inverse]
  have htr : exRay.transform (Matrix4.translation (-12) (-6) 0) =
      ⟨⟨-8, 3, 0, 1⟩, ⟨-(4 / 5), -(3 / 5), 0, 0⟩⟩ := by
    unfold Ray.transform Matrix4.mulTup exRay Matrix4.translation point vector
    ext <;> norm_num
  rw [htr, show blockerShape =
    Shape.sphere (Matrix4.translation 12 6 0) Material.default from rfl]
  apply sphere_shapeIntersect_miss
  norm_num [Tup.dot, Tup.sub, point]
lemma exWorld_flatMap_exRay :
    exWorld.objects.flatMap (fun o => o.intersect exRay) =
      [⟨5, mirrorShape⟩, ⟨15, floorShape⟩] := by
  show (mirrorShape.intersect exRay ++
    (floorShape.intersect exRay ++ (blockerShape.intersect exRay ++ []))) = _
  rw [mirror_intersect_exRay, floor_intersect_exRay, blocker_intersect_exRay]
  rfl

lemma hit_exRay :
    hit (exRay.intersectObjects exWorld.objects) = some ⟨5, mirrorShape⟩ := by
  refine hit_intersectObjects_eq _ _ _ ?_ (by norm_num) ?_
  · rw [exWorld_flatMap_exRay]
    exact List.mem_cons_self _ _
  · rw [exWorld_flatMap_exRay]
    intro j hj hjpos
    rcases List.mem_cons.mp hj with rfl | hj2
    · exact Or.inl rfl
    · rcases List.mem_cons.mp hj2 with rfl | hj3
      · exact Or.inr (by norm_num)
      · simp at hj3

lemma mirror_normalAt :
    mirrorShape.normalAt (point 0 6 0) = some ⟨1, 0, 0, 0⟩ := by
  unfold Shape.normalAt
  rw [show mirrorShape.transform = mirrorTransform from rfl,
    mirrorTransform_inverse, mirrorTransform_transpose_inverse]
  simp only [Option.map_some', Option.some_bind]
  congr 1
  have h1 : mirrorTransformInv.mulTup (point 0 6 0) = ⟨-6, 0, 0, 1⟩ := by
    unfold Matrix4.mulTup mirrorTransformInv point
    ext <;> norm_num
  rw [h1]
  have h2 : mirrorShape.shapeNormalAt ⟨-6, 0, 0, 1⟩ = vector 0 1 0 := rfl -- keep
  rw [h2]
  have h3 : mirrorTransform.mulTup (vector 0 1 0) = ⟨1, 0, 0, 0⟩ := by
    unfold Matrix4.mulTup mirrorTransform vector
    ext <;> norm_num
  rw [h3]
  have h4 : (Tup.mk (1:ℝ) 0 0 0).length = 1 := by
    unfold Tup.length
    rw [show (1:ℝ) * 1 + 0 * 0 + 0 * 0 = 1 by norm_num, Real.sqrt_one]
  unfold Tup.norm
  rw [h4]
  ext <;> norm_num

lemma prepComps_exRay :
    exRay.prepComps ⟨5, mirrorShape⟩ = some pcF := by
  unfold Ray.prepComps
  have hp : exRay.position (Intersection.mk (5:ℝ) mirrorShape).at_ =
      point 0 6 0 := by
    unfold Ray.position exRay Tup.mul Tup.add point vector
    ext <;> norm_num
  rw [show (Intersection.mk (5:ℝ) mirrorShape).object = mirrorShape from rfl,
    hp, mirror_normalAt, Option.map_some']
  congr 1
  have hdot : (Tup.mk (1:ℝ) 0 0 0).dot exRay.direction.neg = 4 / 5 := by
    unfold Tup.dot Tup.neg exRay vector
    norm_num
  have hneg : ¬((4:ℝ) / 5 < 0) := by norm_num
  rw [hdot]
  unfold pcF
  refine PreComp.ext rfl rfl ?_ ?_ (if_neg hneg) ?_ ?_ rfl rfl
  · rw [if_neg hneg]
    unfold Tup.add Tup.mul point
    ext <;> norm_num
  · unfold Tup.neg exRay vector
    ext <;> norm_num
  · exact decide_eq_false hneg
  · unfold Tup.reflect Tup.sub Tup.mul Tup.dot Tup.neg exRay vector
    ext <;> norm_num

lemma sqrt_four : Real.sqrt 4 = 2 := by
  rw [show (4:ℝ) = 2 ^ 2 by norm_num,
    Real.sqrt_sq (by norm_num : (0:ℝ) ≤ 2)]

/-- The shadow ray cast from the over point of the mirror hit toward the
light. -/
def shadowRayF : Ray := ⟨⟨0.00001, 6, 0, 1⟩, ⟨1, 0, 0, 0⟩⟩

lemma shadowF_sub :
    exLight.position.sub pcF.overPoint = ⟨25 - 0.00001, 0, 0, 0⟩ := by
  unfold Tup.sub exLight pcF point
  ext <;> norm_num

lemma shadowF_length :
    (exLight.position.sub pcF.overPoint).length = 25 - 0.00001 := by
  rw [shadowF_sub]
  unfold Tup.length
  rw [show ((25 - 0.00001 : ℝ) * (25 - 0.00001) + 0 * 0 + 0 * 0) =
    (25 - 0.00001 : ℝ) ^ 2 by ring, Real.sqrt_sq (by norm_num)]

lemma shadowF_norm :
    (exLight.position.sub pcF.overPoint).norm = ⟨1, 0, 0, 0⟩ := by
  have h := shadowF_length
  rw [shadowF_sub] at h ⊢
  unfold Tup.norm
  rw [h]
  ext <;> norm_num

lemma mirror_intersect_shadowF :
    mirrorShape.intersect shadowRayF = [⟨-0.00001, mirrorShape⟩] := by
  rw [Shape.intersect_eval mirrorShape shadowRayF mirrorTransformInv
    mirrorTransform_inverse]
  have htr : shadowRayF.transform mirrorTransformInv =
      ⟨⟨-6, 0.00001, 0, 1⟩, ⟨0, 1, 0, 0⟩⟩ := by
    unfold Ray.transform Matrix4.mulTup shadowRayF mirrorTransformInv
    ext <;> norm_num
  rw [htr, show mirrorShape = Shape.plane mirrorTransform matMirror from rfl,
    plane_shapeIntersect_hit _ _ _ (by
      rw [show ((⟨⟨-6, 0.00001, 0, 1⟩, ⟨0, 1, 0, 0⟩⟩ : Ray)).direction.y
          = 1 from rfl, abs_of_pos (by norm_num : (0:ℝ) < 1)]
      norm_num)]
  norm_num

lemma floor_intersect_shadowF : floorShape.intersect shadowRayF = [] := by
  rw [Shape.intersect_eval floorShape shadowRayF Matrix4.ident ident_inverse]
  have htr : shadowRayF.transform Matrix4.ident =
      ⟨⟨0.00001, 6, 0, 1⟩, ⟨1, 0, 0, 0⟩⟩ := by
    unfold Ray.transform Matrix4.mulTup shadowRayF Matrix4.ident
    ext <;> norm_num
  rw [htr, show floorShape = Shape.plane Matrix4.ident matFloor from rfl]
  apply plane_shapeIntersect_parallel
  norm_num

lemma blocker_intersect_shadowF :
    blockerShape.intersect shadowRayF =
      [⟨11 - 0.00001, blockerShape⟩, ⟨13 - 0.00001, blockerShape⟩] := by
  rw [Shape.intersect_eval blockerShape shadowRayF
    (Matrix4.translation (-12) (-6) 0) translation_12_6_0_inverse]
  have htr : shadowRayF.transform (Matrix4.translation (-12) (-6) 0) =
      ⟨⟨0.00001 - 12, 0, 0, 1⟩, ⟨1, 0, 0, 0⟩⟩ := by
    unfold Ray.transform Matrix4.mulTup shadowRayF Matrix4.translation
    ext <;> norm_num
  rw [htr, show blockerShape =
    Shape.sphere (Matrix4.translation 12 6 0) Material.default from rfl,
    sphere_shapeIntersect_hit _ _ _ (by norm_num [Tup.dot, Tup.sub, point])]
  norm_num [Tup.dot, Tup.sub, point, sqrt_four]

lemma hit_shadowF :
    hit (shadowRayF.intersectObjects exWorld.objects) =
      some ⟨11 - 0.00001, blockerShape⟩ := by
  have hflat : exWorld.objects.flatMap (fun o => o.intersect shadowRayF) =
      [⟨-0.00001, mirrorShape⟩, ⟨11 - 0.00001, blockerShape⟩,
       ⟨13 - 0.00001, blockerShape⟩] := by
    show (mirrorShape.intersect shadowRayF ++
      (floorShape.intersect shadowRayF ++
        (blockerShape.intersect shadowRayF ++ []))) = _
    rw [mirror_intersect_shadowF, floor_intersect_shadowF,
      blocker_intersect_shadowF]
    rfl
  refine hit_intersectObjects_eq _ _ _ ?_ (by norm_num) ?_
  · rw [hflat]
    right
    exact List.mem_cons_self _ _
  · rw [hflat]
    intro j hj hjpos
    rcases List.mem_cons.mp hj with rfl | hj2
    · exact absurd hjpos (by norm_num)
    · rcases List.mem_cons.mp hj2 with rfl | hj3
      · exact Or.inl rfl
      · rcases List.mem_cons.mp hj3 with rfl | hj4
        · exact Or.inr (by norm_num)
        · simp at hj4

lemma isShadowed_pcF : exWorld.isShadowed pcF.overPoint = true := by
  unfold World.isShadowed
  rw [show exWorld.light = exLight from rfl, shadowF_norm,
    show Ray.mk pcF.overPoint (Tup.mk 1 0 0 0) = shadowRayF from rfl,
    hit_shadowF]
  simp only [Option.map_some', Option.getD_some]
  rw [shadowF_length]
  simp only [decide_eq_true_eq]
  norm_num

lemma mirror_intersect_reflRay :
    mirrorShape.intersect reflRay = [⟨-(1 / 80000), mirrorShape⟩] := by
  rw [Shape.intersect_eval mirrorShape reflRay mirrorTransformInv
    mirrorTransform_inverse]
  have htr : reflRay.transform mirrorTransformInv =
      ⟨⟨-6, 0.00001, 0, 1⟩, ⟨3 / 5, 4 / 5, 0, 0⟩⟩ := by
    unfold Ray.transform Matrix4.mulTup reflRay mirrorTransformInv
    ext <;> norm_num
  rw [htr, show mirrorShape = Shape.plane mirrorTransform matMirror from rfl,
    plane_shapeIntersect_hit _ _ _ (by
      rw [show ((⟨⟨-6, 0.00001, 0, 1⟩, ⟨3 / 5, 4 / 5, 0, 0⟩⟩ : Ray)).direction.y
          = 4 / 5 from rfl, abs_of_pos (by norm_num : (0:ℝ) < 4 / 5)]
      norm_num)]
  norm_num

lemma floor_intersect_reflRay :
    floorShape.intersect reflRay = [⟨10, floorShape⟩] := by
  rw [Shape.intersect_eval floorShape reflRay Matrix4.ident ident_inverse]
  have htr : reflRay.transform Matrix4.ident =
      ⟨⟨0.00001, 6, 0, 1⟩, ⟨4 / 5, -(3 / 5), 0, 0⟩⟩ := by
    unfold Ray.transform Matrix4.mulTup reflRay Matrix4.ident
    ext <;> norm_num
  rw [htr, show floorShape = Shape.plane Matrix4.ident matFloor from rfl,
    plane_shapeIntersect_hit _ _ _ (by
      rw [show ((⟨⟨0.00001, 6, 0, 1⟩, ⟨4 / 5, -(3 / 5), 0, 0⟩⟩ : Ray)).direction.y
          = -(3 / 5) from rfl, abs_neg,
        abs_of_pos (by norm_num : (0:ℝ) < 3 / 5)]
      norm_num)]
  norm_num

lemma blocker_intersect_reflRay : blockerShape.intersect reflRay = [] := by
  rw [Shape.intersect_eval blockerShape reflRay
    (Matrix4.translation (-12) (-6) 0) translation_12_6_0_inverse]
  have htr : reflRay.transform (Matrix4.translation (-12) (-6) 0) =
      ⟨⟨0.00001 - 12, 0, 0, 1⟩, ⟨4 / 5, -(3 / 5), 0, 0⟩⟩ := by
    unfold Ray.transform Matrix4.mulTup reflRay Matrix4.translation
    ext <;> norm_num
  rw [htr, show blockerShape =
    Shape.sphere (Matrix4.translation 12 6 0) Material.default from rfl]
  apply sphere_shapeIntersect_miss
  norm_num [Tup.dot, Tup.sub, point]

lemma hit_reflRay :
    hit (reflRay.intersectObjects exWorld.objects) =
      some ⟨10, floorShape⟩ := by
  have hflat : exWorld.objects.flatMap (fun o => o.intersect reflRay) =
      [⟨-(1 / 80000), mirrorShape⟩, ⟨10, floorShape⟩] := by
    show (mirrorShape.intersect reflRay ++
      (floorShape.intersect reflRay ++ (blockerShape.intersect reflRay ++ []))) = _
    rw [mirror_intersect_reflRay, floor_intersect_reflRay,
      blocker_intersect_reflRay]
    rfl
  refine hit_intersectObjects_eq _ _ _ ?_ (by norm_num) ?_
  · rw [hflat]
    right
    exact List.mem_cons_self _ _
  · rw [hflat]
    intro j hj hjpos
    rcases List.mem_cons.mp hj with rfl | hj2
    · exact absurd hjpos (by norm_num)
    · rcases List.mem_cons.mp hj2 with rfl | hj3
      · exact Or.inl rfl
      · simp at hj3

lemma floor_normalAt :
    floorShape.normalAt ⟨8 + 0.00001, 0, 0, 1⟩ = some ⟨0, 1, 0, 0⟩ := by
  unfold Shape.normalAt
  rw [show floorShape.transform = Matrix4.ident from rfl, ident_inverse,
    ident_transpose, ident_inverse]
  simp only [Option.map_some', Option.some_bind]
  congr 1
  have h1 : Matrix4.ident.mulTup ⟨8 + 0.00001, 0, 0, 1⟩ =
      ⟨8 + 0.00001, 0, 0, 1⟩ := by
    unfold Matrix4.mulTup Matrix4.ident
    ext <;> norm_num
  rw [h1]
  have h2 : floorShape.shapeNormalAt ⟨8 + 0.00001, 0, 0, 1⟩ = vector 0 1 0 :=
    rfl
  rw [h2]
  have h3 : Matrix4.ident.mulTup (vector 0 1 0) = ⟨0, 1, 0, 0⟩ := by
    unfold Matrix4.mulTup Matrix4.ident vector
    ext <;> norm_num
  rw [h3]
  have h4 : (Tup.mk (0:ℝ) 1 0 0).length = 1 := by
    unfold Tup.length
    rw [show (0:ℝ) * 0 + 1 * 1 + 0 * 0 = 1 by norm_num, Real.sqrt_one]
  unfold Tup.norm
  rw [h4]
  ext <;> norm_num

lemma prepComps_reflRay :
    reflRay.prepComps ⟨10, floorShape⟩ = some pcW := by
  unfold Ray.prepComps
  have hp : reflRay.position (Intersection.mk (10:ℝ) floorShape).at_ =
      ⟨8 + 0.00001, 0, 0, 1⟩ := by
    unfold Ray.position reflRay Tup.mul Tup.add
    ext <;> norm_num
  rw [show (Intersection.mk (10:ℝ) floorShape).object = floorShape from rfl,
    hp, floor_normalAt, Option.map_some']
  congr 1
  have hdot : (Tup.mk (0:ℝ) 1 0 0).dot reflRay.direction.neg = 3 / 5 := by
    unfold Tup.dot Tup.neg reflRay
    norm_num
  have hneg : ¬((3:ℝ) / 5 < 0) := by norm_num
  rw [hdot]
  unfold pcW
  refine PreComp.ext rfl rfl ?_ ?_ (if_neg hneg) ?_ ?_ rfl rfl
  · rw [if_neg hneg]
    unfold Tup.add Tup.mul
    ext <;> norm_num
  · unfold Tup.neg reflRay
    ext <;> norm_num
  · exact decide_eq_false hneg
  · unfold Tup.reflect Tup.sub Tup.mul Tup.dot Tup.neg reflRay
    ext <;> norm_num

/-- The vector from the floor over point to the light. -/
def vW : Tup := ⟨17 - 0.00001, 6 - 0.00001, 0, 0⟩

lemma hvW : exLight.position.sub pcW.overPoint = vW := by
  unfold Tup.sub exLight pcW point vW
  ext <;> norm_num

lemma vW_length_pos : 0 < vW.length := by
  unfold Tup.length vW
  exact Real.sqrt_pos.mpr (by norm_num)

lemma vW_length_sq : vW.length * vW.length =
    (17 - 0.00001) * (17 - 0.00001) + (6 - 0.00001) * (6 - 0.00001) := by
  unfold Tup.length vW
  rw [Real.mul_self_sqrt (by norm_num)]
  norm_num

lemma vW_norm_eq : vW.norm =
    ⟨(17 - 0.00001) / vW.length, (6 - 0.00001) / vW.length, 0, 0⟩ := by
  unfold Tup.norm
  rw [show vW.x = 17 - 0.00001 from rfl, show vW.y = 6 - 0.00001 from rfl,
    show vW.z = (0:ℝ) from rfl]
  ext <;> norm_num

/-- Every plane intersection whose root is nonpositive contributes no
positive t. -/
lemma plane_shapeIntersect_nonpos (tm : Matrix4) (mat : Material) (r : Ray)
    (h : -r.origin.y / r.direction.y ≤ 0) :
    ∀ j ∈ (Shape.plane tm mat).shapeIntersect r, j.at_ ≤ 0 := by
  intro j hj
  unfold Shape.shapeIntersect at hj
  by_cases hpar : |r.direction.y| ≤ 0.00001
  · rw [if_pos hpar] at hj
    simp at hj
  · rw [if_neg hpar] at hj
    simp at hj
    rw [hj]
    exact h

lemma mirror_shadowW_nonpos :
    ∀ j ∈ mirrorShape.intersect (Ray.mk pcW.overPoint vW.norm),
      j.at_ ≤ 0 := by
  rw [Shape.intersect_eval mirrorShape _ mirrorTransformInv
    mirrorTransform_inverse]
  have htr : (Ray.mk pcW.overPoint vW.norm).transform mirrorTransformInv =
      ⟨⟨-0.00001, 8 + 0.00001, 0, 1⟩,
       ⟨-((6 - 0.00001) / vW.length), (17 - 0.00001) / vW.length, 0, 0⟩⟩ := by
    rw [show (Ray.mk pcW.overPoint vW.norm).transform mirrorTransformInv =
      Ray.mk (mirrorTransformInv.mulTup pcW.overPoint)
        (mirrorTransformInv.mulTup vW.norm) from rfl, vW_norm_eq]
    unfold Matrix4.mulTup mirrorTransformInv pcW
    refine Ray.ext ?_ ?_ <;> ext <;> norm_num
  rw [htr, show mirrorShape = Shape.plane mirrorTransform matMirror from rfl]
  apply plane_shapeIntersect_nonpos
  apply div_nonpos_of_nonpos_of_nonneg
  · norm_num
  · exact div_nonneg (by norm_num) vW_length_pos.le

lemma floor_shadowW_nonpos :
    ∀ j ∈ floorShape.intersect (Ray.mk pcW.overPoint vW.norm),
      j.at_ ≤ 0 := by
  rw [Shape.intersect_eval floorShape _ Matrix4.ident ident_inverse]
  have htr : (Ray.mk pcW.overPoint vW.norm).transform Matrix4.ident =
      ⟨⟨8 + 0.00001, 0.00001, 0, 1⟩,
       ⟨(17 - 0.00001) / vW.length, (6 - 0.00001) / vW.length, 0, 0⟩⟩ := by
    rw [show (Ray.mk pcW.overPoint vW.norm).transform Matrix4.ident =
      Ray.mk (Matrix4.ident.mulTup pcW.overPoint)
        (Matrix4.ident.mulTup vW.norm) from rfl, vW_norm_eq]
    unfold Matrix4.mulTup Matrix4.ident pcW
    refine Ray.ext ?_ ?_ <;> ext <;> norm_num
  rw [htr, show floorShape = Shape.plane Matrix4.ident matFloor from rfl]
  apply plane_shapeIntersect_nonpos
  apply div_nonpos_of_nonpos_of_nonneg
  · norm_num
  · exact div_nonneg (by norm_num) vW_length_pos.le

/-- A discriminant certificate for a sphere miss, stated in the exact shape
produced by the local sphere routine. -/
lemma sphere_disc_neg_of (dx dy dz sx sy sz : ℝ)
    (h : (dx * sx + dy * sy + dz * sz) * (dx * sx + dy * sy + dz * sz) <
      (dx * dx + dy * dy + dz * dz) * (sx * sx + sy * sy + sz * sz - 1)) :
    (dx * sx + dy * sy + dz * sz) * 2 * ((dx * sx + dy * sy + dz * sz) * 2) -
    4 * (dx * dx + dy * dy + dz * dz) *
      (sx * sx + sy * sy + sz * sz - 1) < 0 := by
  nlinarith

lemma blocker_shadowW_empty :
    blockerShape.intersect (Ray.mk pcW.overPoint vW.norm) = [] := by
  rw [Shape.intersect_eval blockerShape _
    (Matrix4.translation (-12) (-6) 0) translation_12_6_0_inverse]
  have htr : (Ray.mk pcW.overPoint vW.norm).transform
      (Matrix4.translation (-12) (-6) 0) =
      ⟨⟨0.00001 - 4, 0.00001 - 6, 0, 1⟩,
       ⟨(17 - 0.00001) / vW.length, (6 - 0.00001) / vW.length, 0, 0⟩⟩ := by
    rw [show (Ray.mk pcW.overPoint vW.norm).transform
      (Matrix4.translation (-12) (-6) 0) =
      Ray.mk ((Matrix4.translation (-12) (-6) 0).mulTup pcW.overPoint)
        ((Matrix4.translation (-12) (-6) 0).mulTup vW.norm) from rfl,
      vW_norm_eq]
    unfold Matrix4.mulTup Matrix4.translation pcW
    refine Ray.ext ?_ ?_ <;> ext <;> norm_num
  rw [htr, show blockerShape =
    Shape.sphere (Matrix4.translation 12 6 0) Material.default from rfl]
  apply sphere_shapeIntersect_miss
  unfold Tup.dot Tup.sub point
  apply sphere_disc_neg_of
  have hl : vW.length ≠ 0 := ne_of_gt vW_length_pos
  have e1 : (17 - 0.00001) / vW.length * (0.00001 - 4 - 0) +
      (6 - 0.00001) / vW.length * (0.00001 - 6 - 0) + 0 * (0 - 0) =
      ((17 - 0.00001) * (0.00001 - 4) + (6 - 0.00001) * (0.00001 - 6)) /
        vW.length := by
    field_simp
  have e2 : (17 - 0.00001) / vW.length * ((17 - 0.00001) / vW.length) +
      (6 - 0.00001) / vW.length * ((6 - 0.00001) / vW.length) + 0 * 0 =
      ((17 - 0.00001) * (17 - 0.00001) + (6 - 0.00001) * (6 - 0.00001)) /
        (vW.length * vW.length) := by
    field_simp
  rw [e1, e2, div_mul_div_comm, div_mul_eq_mul_div,
    div_lt_div_iff_of_pos_right (mul_pos vW_length_pos vW_length_pos)]
  norm_num

lemma hit_shadowW :
    hit ((Ray.mk pcW.overPoint vW.norm).intersectObjects exWorld.objects) =
      none := by
  apply hit_intersectObjects_none
  intro j hj
  rcases List.mem_flatMap.mp hj with ⟨o, ho, hjo⟩
  rcases List.mem_cons.mp ho with rfl | ho2
  · exact mirror_shadowW_nonpos j hjo
  · rcases List.mem_cons.mp ho2 with rfl | ho3
    · exact floor_shadowW_nonpos j hjo
    · rcases List.mem_cons.mp ho3 with rfl | ho4
      · rw [blocker_shadowW_empty] at hjo
        simp at hjo
      · simp at ho4

lemma isShadowed_pcW : exWorld.isShadowed pcW.overPoint = false := by
  unfold World.isShadowed
  rw [show exWorld.light = exLight from rfl, hvW, hit_shadowW]
  rfl

lemma shadeHit_pcW : pcW.shadeHit exLight false = ⟨1, 0, 0⟩ := by
  unfold PreComp.shadeHit lighting
  simp only [Bool.false_eq_true, if_false]
  by_cases h1 : 0 ≤ (exLight.position.sub pcW.point).norm.dot pcW.normV
  · rw [if_pos h1, if_pos h1]
    by_cases h2 : ((exLight.position.sub pcW.point).norm.neg.reflect
        pcW.normV).dot pcW.eyeV ≤ 0
    · rw [if_pos h2]
      simp only [pcW, floorShape, matFloor, exLight, Shape.material,
        Option.none_bind, Option.getD_none, Colour.white, Colour.mulC,
        Colour.mul, Colour.add, Colour.black]
      ext <;> norm_num
    · rw [if_neg h2]
      simp only [pcW, floorShape, matFloor, exLight, Shape.material,
        Option.none_bind, Option.getD_none, Colour.white, Colour.mulC,
        Colour.mul, Colour.add, Colour.black]
      ext <;> norm_num
  · rw [if_neg h1, if_neg h1]
    simp only [pcW, floorShape, matFloor, exLight, Shape.material,
      Option.none_bind, Option.getD_none, Colour.white, Colour.mulC,
      Colour.mul, Colour.add, Colour.black]
    ext <;> norm_num

lemma colorAt_reflRay : exWorld.colorAt reflRay 1 = some ⟨1, 0, 0⟩ := by
  show exWorld.colorAtBody (fun r => exWorld.colorAt r 0) reflRay 0 = _
  unfold World.colorAtBody
  rw [hit_reflRay,
    show (some (Intersection.mk (10:ℝ) floorShape)).bind reflRay.prepComps =
      reflRay.prepComps ⟨10, floorShape⟩ from rfl,
    prepComps_reflRay,
    show (some pcW).map (fun pc => exWorld.isShadowed pc.overPoint) =
      some (exWorld.isShadowed pcW.overPoint) from rfl,
    isShadowed_pcW]
  simp only [Option.getD_some, Bool.false_eq_true, if_false]
  rw [show reflectedColourGo (fun r => exWorld.colorAt r 0) (some pcW) 0 =
    some Colour.black from rfl]
  show some ((((some pcW).map
    (fun pc => pc.shadeHit exWorld.light false)).map
    (fun s => s.add Colour.black)).getD Colour.black) = _
  simp only [Option.map_some', Option.getD_some]
  rw [show exWorld.light = exLight from rfl, shadeHit_pcW]
  congr 1
  unfold Colour.add Colour.black
  ext <;> norm_num

lemma reflectedColour_pcF :
    exWorld.reflectedColour (some pcF) 1 = some ⟨1 / 2, 0, 0⟩ := by
  unfold World.reflectedColour reflectedColourGo
  rw [if_neg (by norm_num : ¬(1 = 0))]
  show (if pcF.object.material.reflectivity = 0 then some Colour.black
    else (exWorld.colorAt (Ray.mk pcF.overPoint pcF.reflectV) 1).map
      (fun colour => colour.mul pcF.object.material.reflectivity)) = _
  rw [if_neg (show ¬pcF.object.material.reflectivity = 0 from by
    norm_num [pcF, mirrorShape, matMirror, Shape.material]),
    show Ray.mk pcF.overPoint pcF.reflectV = reflRay from rfl,
    colorAt_reflRay]
  simp only [Option.map_some']
  congr 1
  unfold Colour.mul
  ext <;> norm_num [pcF, mirrorShape, matMirror, Shape.material]

lemma colorAt_exRay_two : exWorld.colorAt exRay 2 = some Colour.black := by
  show exWorld.colorAtBody (fun r => exWorld.colorAt r 1) exRay 1 = _
  unfold World.colorAtBody
  rw [hit_exRay,
    show (some (Intersection.mk (5:ℝ) mirrorShape)).bind exRay.prepComps =
      exRay.prepComps ⟨5, mirrorShape⟩ from rfl,
    prepComps_exRay,
    show (some pcF).map (fun pc => exWorld.isShadowed pc.overPoint) =
      some (exWorld.isShadowed pcF.overPoint) from rfl,
    isShadowed_pcF]
  simp only [Option.getD_some]
  rfl

/-
Claim theorems.  Each claim of the specification gets exactly one theorem
below, together with a witness or counterexample where required.
-/

/-- A fully reflective material, as built by the stack-overflow regression
test of world.rs. -/
def reflective : Material := ⟨0.1, 0.9, 0.9, 200, Colour.white, none, 1⟩

/-- The plane y = -1 with full reflectivity. -/
def facingFloor : Shape := .plane (Matrix4.translation 0 (-1) 0) reflective

/-- The plane y = 1 with full reflectivity. -/
def facingCeiling : Shape := .plane (Matrix4.translation 0 1 0) reflective

/-- The point light sitting between the two facing planes. -/
def facingLight : PointLight := ⟨point 0 0 0, Colour.white⟩

/-- Two facing fully reflective planes with a light between them: the
reflection-termination scenario of the spec. -/
def facingWorld : World :=
  ⟨[facingFloor, facingCeiling], facingLight⟩

/-- The ray cast between the two facing planes. -/
def facingRay : Ray := ⟨point 0 0 0, vector 0 1 0⟩

lemma translation_0_1_0_inverse :
    (Matrix4.translation 0 1 0).inverse =
      some (Matrix4.translation 0 (-1) 0) := by
  rw [Matrix4.inverse,
    if_neg (by norm_num [Matrix4.translation, Matrix4.determinant, det3,
      det2])]
  congr 1
  ext <;>
    norm_num [Matrix4.translation, Matrix4.cofactorMatrix, Matrix4.transpose,
      Matrix4.divAll, Matrix4.determinant, det3, det2]

lemma translation_0_neg1_0_inverse :
    (Matrix4.translation 0 (-1) 0).inverse =
      some (Matrix4.translation 0 1 0) := by
  rw [Matrix4.inverse,
    if_neg (by norm_num [Matrix4.translation, Matrix4.determinant, det3,
      det2])]
  congr 1
  ext <;>
    norm_num [Matrix4.translation, Matrix4.cofactorMatrix, Matrix4.transpose,
      Matrix4.divAll, Matrix4.determinant, det3, det2]

lemma translation_0_1_0_transpose_inverse :
    (Matrix4.translation 0 1 0).transpose.inverse =
      some ((Matrix4.translation 0 (-1) 0).transpose) := by
  rw [Matrix4.inverse,
    if_neg (by norm_num [Matrix4.translation, Matrix4.transpose,
      Matrix4.determinant, det3, det2])]
  congr 1
  ext <;>
    norm_num [Matrix4.translation, Matrix4.cofactorMatrix, Matrix4.transpose,
      Matrix4.divAll, Matrix4.determinant, det3, det2]

lemma floor_intersect_facingRay :
    facingFloor.intersect facingRay = [⟨-1, facingFloor⟩] := by
  rw [Shape.intersect_eval facingFloor facingRay
    (Matrix4.translation 0 1 0) translation_0_neg1_0_inverse]
  have htr : facingRay.transform (Matrix4.translation 0 1 0) =
      ⟨⟨0, 1, 0, 1⟩, ⟨0, 1, 0, 0⟩⟩ := by
    unfold Ray.transform Matrix4.mulTup facingRay Matrix4.translation point
      vector
    ext <;> norm_num
  rw [htr, show facingFloor =
    Shape.plane (Matrix4.translation 0 (-1) 0) reflective from rfl,
    plane_shapeIntersect_hit _ _ _ (by
      rw [show ((⟨⟨0, 1, 0, 1⟩, ⟨0, 1, 0, 0⟩⟩ : Ray)).direction.y = 1 from
        rfl, abs_of_pos (by norm_num : (0:ℝ) < 1)]
      norm_num)]
  norm_num

lemma ceiling_intersect_facingRay :
    facingCeiling.intersect facingRay = [⟨1, facingCeiling⟩] := by
  rw [Shape.intersect_eval facingCeiling facingRay
    (Matrix4.translation 0 (-1) 0) translation_0_1_0_inverse]
  have htr : facingRay.transform (Matrix4.translation 0 (-1) 0) =
      ⟨⟨0, -1, 0, 1⟩, ⟨0, 1, 0, 0⟩⟩ := by
    unfold Ray.transform Matrix4.mulTup facingRay Matrix4.translation point
      vector
    ext <;> norm_num
  rw [htr, show facingCeiling =
    Shape.plane (Matrix4.translation 0 1 0) reflective from rfl,
    plane_shapeIntersect_hit _ _ _ (by
      rw [show ((⟨⟨0, -1, 0, 1⟩, ⟨0, 1, 0, 0⟩⟩ : Ray)).direction.y = 1 from
        rfl, abs_of_pos (by norm_num : (0:ℝ) < 1)]
      norm_num)]
  norm_num

lemma hit_facingRay :
    hit (facingRay.intersectObjects facingWorld.objects) =
      some ⟨1, facingCeiling⟩ := by
  have hflat : facingWorld.objects.flatMap (fun o => o.intersect facingRay) =
      [⟨-1, facingFloor⟩, ⟨1, facingCeiling⟩] := by
    show (facingFloor.intersect facingRay ++
      (facingCeiling.intersect facingRay ++ [])) = _
    rw [floor_intersect_facingRay, ceiling_intersect_facingRay]
    rfl
  refine hit_intersectObjects_eq _ _ _ ?_ (by norm_num) ?_
  · rw [hflat]
    right
    exact List.mem_cons_self _ _
  · rw [hflat]
    intro j hj hjpos
    rcases List.mem_cons.mp hj with rfl | hj2
    · exact absurd hjpos (by norm_num)
    · rcases List.mem_cons.mp hj2 with rfl | hj3
      · exact Or.inl rfl
      · simp at hj3

lemma ceiling_normalAt :
    facingCeiling.normalAt (point 0 1 0) = some ⟨0, 1, 0, 0⟩ := by
  unfold Shape.normalAt
  rw [show facingCeiling.transform = Matrix4.translation 0 1 0 from rfl,
    translation_0_1_0_inverse, translation_0_1_0_transpose_inverse]
  simp only [Option.map_some', Option.some_bind]
  congr 1
  have h1 : (Matrix4.translation 0 (-1) 0).mulTup (point 0 1 0) =
      ⟨0, 0, 0, 1⟩ := by
    unfold Matrix4.mulTup Matrix4.translation point
    ext <;> norm_num
  rw [h1]
  have h2 : facingCeiling.shapeNormalAt ⟨0, 0, 0, 1⟩ = vector 0 1 0 := rfl
  rw [h2]
  have h3 : ((Matrix4.translation 0 (-1) 0).transpose).mulTup (vector 0 1 0) =
      ⟨0, 1, 0, -1⟩ := by
    unfold Matrix4.mulTup Matrix4.transpose Matrix4.translation vector
    ext <;> norm_num
  rw [h3]
  have h4 : (Tup.mk (0:ℝ) 1 0 0).length = 1 := by
    unfold Tup.length
    rw [show (0:ℝ) * 0 + 1 * 1 + 0 * 0 = 1 by norm_num, Real.sqrt_one]
  unfold Tup.norm
  rw [h4]
  ext <;> norm_num

/-- The precomputed shading state at the ceiling hit of the upward ray: the
eye looks at the back face, so the hit is inside and the normal is
flipped. -/
def pcC : PreComp :=
  ⟨facingCeiling, point 0 1 0, ⟨0, 1 - 0.00001, 0, 1⟩, ⟨0, -1, 0, 0⟩,
   ⟨0, -1, 0, 0⟩, true, ⟨0, -1, 0, 0⟩, 1.1, 1.2⟩

lemma prepComps_facingRay :
    facingRay.prepComps ⟨1, facingCeiling⟩ = some pcC := by
  unfold Ray.prepComps
  have hp : facingRay.position (Intersection.mk (1:ℝ) facingCeiling).at_ =
      point 0 1 0 := by
    unfold Ray.position facingRay Tup.mul Tup.add point vector
    ext <;> norm_num
  rw [show (Intersection.mk (1:ℝ) facingCeiling).object = facingCeiling from
    rfl, hp, ceiling_normalAt, Option.map_some']
  congr 1
  have hdot : (Tup.mk (0:ℝ) 1 0 0).dot facingRay.direction.neg = -1 := by
    unfold Tup.dot Tup.neg facingRay vector
    norm_num
  have hlt : (-1:ℝ) < 0 := by norm_num
  rw [hdot]
  unfold pcC
  refine PreComp.ext rfl rfl ?_ ?_ ?_ ?_ ?_ rfl rfl
  · rw [if_pos hlt]
    unfold Tup.add Tup.mul Tup.neg point
    ext <;> norm_num
  · unfold Tup.neg facingRay vector
    ext <;> norm_num
  · rw [if_pos hlt]
    unfold Tup.neg
    ext <;> norm_num
  · exact decide_eq_true hlt
  · unfold Tup.reflect Tup.sub Tup.mul Tup.dot Tup.neg facingRay vector
    ext <;> norm_num

/-- The vector from the ceiling over point down to the central light. -/
def facingV : Tup := ⟨0, 0.00001 - 1, 0, 0⟩

lemma facingV_sub : facingLight.position.sub pcC.overPoint = facingV := by
  unfold Tup.sub facingLight pcC point facingV
  ext <;> norm_num

lemma facingV_length : facingV.length = 1 - 0.00001 := by
  unfold Tup.length facingV
  rw [show (0:ℝ) * 0 + (0.00001 - 1) * (0.00001 - 1) + 0 * 0 =
    (1 - 0.00001) ^ 2 by ring, Real.sqrt_sq (by norm_num)]

lemma facingV_norm : facingV.norm = ⟨0, -1, 0, 0⟩ := by
  have h := facingV_length
  unfold Tup.norm
  rw [h]
  unfold facingV
  ext <;> norm_num

/-- The shadow ray cast from the ceiling over point toward the light. -/
def facingShadowRay : Ray := ⟨⟨0, 1 - 0.00001, 0, 1⟩, ⟨0, -1, 0, 0⟩⟩

lemma floor_intersect_facingShadow :
    facingFloor.intersect facingShadowRay =
      [⟨2 - 0.00001, facingFloor⟩] := by
  rw [Shape.intersect_eval facingFloor facingShadowRay
    (Matrix4.translation 0 1 0) translation_0_neg1_0_inverse]
  have htr : facingShadowRay.transform (Matrix4.translation 0 1 0) =
      ⟨⟨0, 2 - 0.00001, 0, 1⟩, ⟨0, -1, 0, 0⟩⟩ := by
    unfold Ray.transform Matrix4.mulTup facingShadowRay Matrix4.translation
    ext <;> norm_num
  rw [htr, show facingFloor =
    Shape.plane (Matrix4.translation 0 (-1) 0) reflective from rfl,
    plane_shapeIntersect_hit _ _ _ (by
      rw [show ((⟨⟨0, 2 - 0.00001, 0, 1⟩, ⟨0, -1, 0, 0⟩⟩ : Ray)).direction.y
          = -1 from rfl, abs_neg, abs_of_pos (by norm_num : (0:ℝ) < 1)]
      norm_num)]
  norm_num

lemma ceiling_intersect_facingShadow :
    facingCeiling.intersect facingShadowRay =
      [⟨-0.00001, facingCeiling⟩] := by
  rw [Shape.intersect_eval facingCeiling facingShadowRay
    (Matrix4.translation 0 (-1) 0) translation_0_1_0_inverse]
  have htr : facingShadowRay.transform (Matrix4.translation 0 (-1) 0) =
      ⟨⟨0, -0.00001, 0, 1⟩, ⟨0, -1, 0, 0⟩⟩ := by
    unfold Ray.transform Matrix4.mulTup facingShadowRay Matrix4.translation
    ext <;> norm_num
  rw [htr, show facingCeiling =
    Shape.plane (Matrix4.translation 0 1 0) reflective from rfl,
    plane_shapeIntersect_hit _ _ _ (by
      rw [show ((⟨⟨0, -0.00001, 0, 1⟩, ⟨0, -1, 0, 0⟩⟩ : Ray)).direction.y
          = -1 from rfl, abs_neg, abs_of_pos (by norm_num : (0:ℝ) < 1)]
      norm_num)]
  norm_num

lemma hit_facingShadow :
    hit (facingShadowRay.intersectObjects facingWorld.objects) =
      some ⟨2 - 0.00001, facingFloor⟩ := by
  have hflat : facingWorld.objects.flatMap
      (fun o => o.intersect facingShadowRay) =
      [⟨2 - 0.00001, facingFloor⟩, ⟨-0.00001, facingCeiling⟩] := by
    show (facingFloor.intersect facingShadowRay ++
      (facingCeiling.intersect facingShadowRay ++ [])) = _
    rw [floor_intersect_facingShadow, ceiling_intersect_facingShadow]
    rfl
  refine hit_intersectObjects_eq _ _ _ ?_ (by norm_num) ?_
  · rw [hflat]
    exact List.mem_cons_self _ _
  · rw [hflat]
    intro j hj hjpos
    rcases List.mem_cons.mp hj with rfl | hj2
    · exact Or.inl rfl
    · rcases List.mem_cons.mp hj2 with rfl | hj3
      · exact absurd hjpos (by norm_num)
      · simp at hj3

lemma isShadowed_pcC : facingWorld.isShadowed pcC.overPoint = false := by
  unfold World.isShadowed
  rw [show facingWorld.light = facingLight from rfl, facingV_sub,
    facingV_norm,
    show Ray.mk pcC.overPoint (Tup.mk 0 (-1) 0 0) = facingShadowRay from rfl,
    hit_facingShadow]
  simp only [Option.map_some', Option.getD_some]
  rw [facingV_length]
  simp only [decide_eq_false_iff_not]
  norm_num

/-- Claim C2: the claim states that color_at with a depth budget of exactly 0
returns normally with a black reflected contribution and that no step
underflows the depth counter.  The code instead computes ref_lim - 1 on the
u32 counter right after the shadow early return, so at 0 every evaluation
that passes the shadow test - any ray whose precomputed hit is missing or
unshadowed - underflows the subtraction: a debug build panics (modelled as
the none result) and a release build wraps the counter to 4294967295.  Only
a shadowed nearest hit returns black before reaching the subtraction. -/
theorem C2_depth_zero_underflows (w : World) (r : Ray)
    (h : ∀ pc, (hit (r.intersectObjects w.objects)).bind r.prepComps =
      some pc → w.isShadowed pc.overPoint = false) :
    w.colorAt r 0 = none := by
  show (if (((hit (r.intersectObjects w.objects)).bind r.prepComps).map
      (fun pc => w.isShadowed pc.overPoint)).getD false then
      some Colour.black else none) = none
  cases hpc : (hit (r.intersectObjects w.objects)).bind r.prepComps with
  | none => rfl
  | some pc =>
      rw [Option.map_some', Option.getD_some, h pc hpc]
      rfl

/-- The empty scene and a ray in it: with no objects there is no hit, so the
depth-0 evaluation passes the shadow test and reaches the underflow. -/
def emptyWorld : World := ⟨[], facingLight⟩

/-- A ray cast in the empty scene. -/
def emptyRay : Ray := ⟨point 0 0 0, vector 0 0 1⟩

lemma emptyWorld_bind_none :
    (hit (emptyRay.intersectObjects emptyWorld.objects)).bind
      emptyRay.prepComps = none := by
  rw [hit_intersectObjects_none emptyRay emptyWorld.objects (by
    intro j hj
    simp [emptyWorld] at hj)]
  rfl

/-- Witness for C2: in the empty scene the precomputed hit is none, and
color_at at the depth budget 0 produces the panic value. -/
theorem C2_witness :
    (hit (emptyRay.intersectObjects emptyWorld.objects)).bind
        emptyRay.prepComps = none ∧
      emptyWorld.colorAt emptyRay 0 = none :=
  ⟨emptyWorld_bind_none,
   C2_depth_zero_underflows emptyWorld emptyRay (fun pc hpc => by
     rw [emptyWorld_bind_none] at hpc
     exact Option.noConfusion hpc)⟩

/-- Counterexample to claim C3 as stated: at the depth budget 0 (a finite
budget) color_at does not return a colour on the two-facing-mirrors scene.
The upward ray hits the ceiling plane at t = 1, the over point between the
planes is not shadowed from the central light, so the evaluation passes the
shadow early return and reaches the underflowing u32 subtraction. -/
theorem C3_counterexample : facingWorld.colorAt facingRay 0 = none := by
  show (if (((hit (facingRay.intersectObjects facingWorld.objects)).bind
      facingRay.prepComps).map
      (fun pc => facingWorld.isShadowed pc.overPoint)).getD false then
      some Colour.black else none) = none
  rw [hit_facingRay,
    show (some (Intersection.mk (1:ℝ) facingCeiling)).bind
      facingRay.prepComps = facingRay.prepComps ⟨1, facingCeiling⟩ from rfl,
    prepComps_facingRay,
    show (some pcC).map (fun pc => facingWorld.isShadowed pc.overPoint) =
      some (facingWorld.isShadowed pcC.overPoint) from rfl,
    isShadowed_pcC]
  rfl

/-- Claim C3, amended: for every world, every ray and every depth budget of
at least 1, color_at terminates with a colour, and the nesting of recursive
color_at calls never exceeds the depth budget, because the counter strictly
decreases on every recursive step. -/
theorem C3_termination (w : World) (r : Ray) (n : ℕ) (hn : 1 ≤ n) :
    (∃ c, w.colorAt r n = some c) ∧ w.colorAtCalls r n ≤ n :=
  ⟨colorAt_isSome w n r hn, colorAtCalls_le w n r⟩

/-- Witness for C3 on the reflection-termination scene of the spec at the
depth budget 5. -/
theorem C3_witness :
    (∃ c, facingWorld.colorAt facingRay 5 = some c) ∧
      facingWorld.colorAtCalls facingRay 5 ≤ 5 :=
  C3_termination facingWorld facingRay 5 (by norm_num)

/-- Claim C4: hit returns none exactly when no intersection has positive t,
and any returned hit is a member of the list with positive t that is minimal
among the members with positive t; intersections with nonpositive t are
discarded. -/
theorem C4_hit_selection (xs : List Intersection) :
    (hit xs = none ↔ ∀ i ∈ xs, i.at_ ≤ 0) ∧
    (∀ i, hit xs = some i →
      i ∈ xs ∧ 0 < i.at_ ∧ ∀ j ∈ xs, 0 < j.at_ → i.at_ ≤ j.at_) := by
  constructor
  · constructor
    · intro hnone i hi
      by_contra hpos
      obtain ⟨j, hj⟩ := hit_isSome xs i hi (lt_of_not_ge hpos)
      rw [hnone] at hj
      exact Option.noConfusion hj
    · exact hit_eq_none xs
  · intro i hi
    exact hit_some_spec xs i hi

/-- Witness for C4 on the t values 5, 7, -3, 2 of the spec (where the hit has
t = 2) and on an all-negative list (where there is no hit). -/
theorem C4_witness :
    (∃ i, hit [(⟨5, floorShape⟩ : Intersection), ⟨7, floorShape⟩,
      ⟨-3, floorShape⟩, ⟨2, floorShape⟩] = some i ∧ i.at_ = 2) ∧
    hit [(⟨-1, floorShape⟩ : Intersection), ⟨-3, floorShape⟩] = none := by
  constructor
  · obtain ⟨i, hi⟩ := hit_isSome
      [(⟨5, floorShape⟩ : Intersection), ⟨7, floorShape⟩,
        ⟨-3, floorShape⟩, ⟨2, floorShape⟩]
      ⟨2, floorShape⟩ (by simp) (by norm_num)
    refine ⟨i, hi, ?_⟩
    obtain ⟨hmem, hpos, hmin⟩ := (C4_hit_selection _).2 i hi
    have hle : i.at_ ≤ 2 := hmin ⟨2, floorShape⟩ (by simp) (by norm_num)
    rcases List.mem_cons.mp hmem with rfl | h2
    · norm_num at hle
    · rcases List.mem_cons.mp h2 with rfl | h3
      · norm_num at hle
      · rcases List.mem_cons.mp h3 with rfl | h4
        · norm_num at hpos
        · rcases List.mem_cons.mp h4 with rfl | h5
          · rfl
          · simp at h5
  · exact (C4_hit_selection _).1.mpr (by
      intro i hi
      rcases List.mem_cons.mp hi with rfl | h2
      · norm_num
      · rcases List.mem_cons.mp h2 with rfl | h3
        · norm_num
        · simp at h3)

/-- Claim C7: in plane object space, a ray whose y direction is within the
0.00001 tolerance of zero produces no intersection, and any other ray
produces exactly the one intersection t = -origin.y / direction.y. -/
theorem C7_plane_intersection (tm : Matrix4) (mat : Material) (r : Ray) :
    (|r.direction.y| ≤ 0.00001 →
      (Shape.plane tm mat).shapeIntersect r = []) ∧
    (¬(|r.direction.y| ≤ 0.00001) →
      (Shape.plane tm mat).shapeIntersect r =
        [⟨-r.origin.y / r.direction.y, Shape.plane tm mat⟩]) :=
  ⟨plane_shapeIntersect_parallel tm mat r, plane_shapeIntersect_hit tm mat r⟩

/-- Witness for C7: a coplanar ray misses the plane, and a ray pointing
straight down from height 1 hits it at t = 1. -/
theorem C7_witness :
    (Shape.plane Matrix4.ident matFloor).shapeIntersect
      ⟨point 0 0 0, vector 0 0 1⟩ = [] ∧
    (Shape.plane Matrix4.ident matFloor).shapeIntersect
      ⟨point 0 1 0, vector 0 (-1) 0⟩ =
      [⟨-(1:ℝ) / (-1), Shape.plane Matrix4.ident matFloor⟩] := by
  constructor
  · exact (C7_plane_intersection Matrix4.ident matFloor _).1 (by
      rw [show ((⟨point 0 0 0, vector 0 0 1⟩ : Ray)).direction.y = 0 from rfl]
      norm_num)
  · exact (C7_plane_intersection Matrix4.ident matFloor _).2 (by
      rw [show ((⟨point 0 1 0, vector 0 (-1) 0⟩ : Ray)).direction.y = -1
        from rfl, abs_neg, abs_of_pos (by norm_num : (0:ℝ) < 1)]
      norm_num)

/-- Claim C8: matrix inversion returns none exactly when the determinant is
0 with no tolerance, and intersecting any shape whose transform has
determinant 0 returns the empty intersection list instead of failing. -/
theorem C8_singular_transform :
    (∀ m : Matrix4, m.inverse = none ↔ m.determinant = 0) ∧
    (∀ (s : Shape) (r : Ray), s.transform.determinant = 0 →
      s.intersect r = []) := by
  have hinv : ∀ m : Matrix4, m.inverse = none ↔ m.determinant = 0 := by
    intro m
    unfold Matrix4.inverse
    by_cases h : m.determinant = 0
    · simp [h]
    · simp [h]
  refine ⟨hinv, ?_⟩
  intro s r hdet
  rw [Shape.intersect, (hinv s.transform).mpr hdet]

/-- A singular matrix: the all-zero bottom row from the matrix test suite. -/
def singularM : Matrix4 :=
  ⟨-4, 2, -2, -3,
   9, 6, 2, 6,
   0, -5, 1, -5,
   0, 0, 0, 0⟩

/-- A sphere carrying a singular transform. -/
def singularShape : Shape := .sphere singularM Material.default

/-- Witness for C8: the determinant of the singular matrix is 0 and the
sphere carrying it yields no intersections. -/
theorem C8_witness :
    singularShape.transform.determinant = 0 ∧
    singularShape.intersect exRay = [] := by
  have hdet : singularShape.transform.determinant = 0 := by
    norm_num [singularShape, singularM, Shape.transform, Matrix4.determinant,
      det3, det2]
  exact ⟨hdet, C8_singular_transform.2 singularShape exRay hdet⟩

/-- Claim C9: intersect_objects returns a permutation of the concatenated
per-shape intersection lists that is sorted in nondecreasing order of t. -/
theorem C9_intersect_objects_sorted (r : Ray) (os : List Shape) :
    (r.intersectObjects os).Perm (os.flatMap (fun o => o.intersect r)) ∧
    List.Pairwise (fun a b => a.at_ ≤ b.at_) (r.intersectObjects os) :=
  ⟨intersectObjects_perm r os, intersectObjects_sorted r os⟩

/-- Claim C1, amended: for a ray whose nearest hit lies on a shape with an
invertible transform and a depth budget of at least 1, color_at returns the
lighting result plus the recursively computed reflected contribution only
when the shadow test reports the point unshadowed; when the point is
shadowed, color_at returns black immediately and the reflected contribution
is discarded (the claim as stated, which adds the reflected contribution
even in shadow, is refuted by the counterexample below). -/
theorem C1_shadow_discards_reflection (w : World) (r : Ray) (n : ℕ)
    (hn : 1 ≤ n) (i : Intersection)
    (hi : hit (r.intersectObjects w.objects) = some i) (pc : PreComp)
    (hpc : r.prepComps i = some pc) :
    (w.isShadowed pc.overPoint = true → w.colorAt r n = some Colour.black) ∧
    (w.isShadowed pc.overPoint = false →
      ∃ rc, w.reflectedColour (some pc) (n - 1) = some rc ∧
        w.colorAt r n = some ((pc.shadeHit w.light false).add rc)) := by
  obtain ⟨m, rfl⟩ : ∃ m, n = m + 1 := ⟨n - 1, by omega⟩
  have hb : w.colorAt r (m + 1) =
      w.colorAtBody (fun ray => w.colorAt ray m) r m := rfl
  constructor
  · intro hs
    rw [hb]
    unfold World.colorAtBody
    rw [hi, show (some i).bind r.prepComps = r.prepComps i from rfl, hpc,
      show (some pc).map (fun pc => w.isShadowed pc.overPoint) =
        some (w.isShadowed pc.overPoint) from rfl, hs]
    rfl
  · intro hs
    obtain ⟨rc, hrc⟩ := reflectedColour_isSome w (some pc) m
    refine ⟨rc, by simpa using hrc, ?_⟩
    rw [hb]
    unfold World.colorAtBody
    rw [hi, show (some i).bind r.prepComps = r.prepComps i from rfl, hpc,
      show (some pc).map (fun pc => w.isShadowed pc.overPoint) =
        some (w.isShadowed pc.overPoint) from rfl, hs]
    simp only [Option.getD_some, Bool.false_eq_true, if_false]
    have hgo : reflectedColourGo (fun ray => w.colorAt ray m) (some pc) m =
        some rc := hrc
    rw [hgo]
    show some ((((some pc).map (fun pcx => pcx.shadeHit w.light false)).map
      (fun s => s.add rc)).getD Colour.black) = _
    simp only [Option.map_some', Option.getD_some]

/-- Witness for C1 on the concrete mirror scene at depth budget 2. -/
theorem C1_witness :
    (exWorld.isShadowed pcF.overPoint = true →
      exWorld.colorAt exRay 2 = some Colour.black) ∧
    (exWorld.isShadowed pcF.overPoint = false →
      ∃ rc, exWorld.reflectedColour (some pcF) (2 - 1) = some rc ∧
        exWorld.colorAt exRay 2 =
          some ((pcF.shadeHit exWorld.light false).add rc)) :=
  C1_shadow_discards_reflection exWorld exRay 2 (by norm_num)
    ⟨5, mirrorShape⟩ hit_exRay pcF prepComps_exRay

/-- Counterexample to claim C1 as stated: in the mirror scene the nearest hit
of the example ray lies on the mirror (an invertible transform), the depth
budget 2 is at least 1, the shadow test reports the hit shadowed, the
lighting term is black and the reflected contribution is the nonzero colour
(1/2, 0, 0); the claimed value, lighting plus reflected contribution, is
therefore not black, yet color_at returns black. -/
theorem C1_counterexample :
    hit (exRay.intersectObjects exWorld.objects) = some ⟨5, mirrorShape⟩ ∧
    exRay.prepComps ⟨5, mirrorShape⟩ = some pcF ∧
    mirrorShape.transform.inverse = some mirrorTransformInv ∧
    exWorld.isShadowed pcF.overPoint = true ∧
    pcF.shadeHit exWorld.light true = Colour.black ∧
    exWorld.reflectedColour (some pcF) 1 = some ⟨1 / 2, 0, 0⟩ ∧
    exWorld.colorAt exRay 2 = some Colour.black ∧
    some ((Colour.black).add ⟨1 / 2, 0, 0⟩) ≠ some Colour.black := by
  refine ⟨hit_exRay, prepComps_exRay, mirrorTransform_inverse, isShadowed_pcF,
    ?_, reflectedColour_pcF, colorAt_exRay_two, ?_⟩
  · rfl
  · intro h
    rw [Option.some_inj] at h
    have hred := congrArg Colour.red h
    norm_num [Colour.add, Colour.black] at hred

/-- Claim C5: the claim states the Ring pattern alternates by the parity of
the floor of the square root of x squared plus z squared.  The source
computes the square root of x + z with no squaring, so at the point
(2, 0, 0) the pattern returns its second colour (floor of the square root of
2 is 1, odd) while the claimed formula selects the first colour (floor of
the square root of 4 is 2, even). -/
theorem C5_ring_formula_bug :
    (Pattern.ring Colour.white Colour.black Matrix4.ident).patternAt
      (point 2 0 0) = Colour.black ∧
    ((⌊Real.sqrt ((2:ℝ) ^ 2 + 0 ^ 2)⌋ : ℤ) % 2 = 0) := by
  constructor
  · show (if (⌊Real.sqrt ((point 2 0 0).x + (point 2 0 0).z)⌋ : ℤ) % 2 = 0
      then Colour.white else Colour.black) = Colour.black
    have hfloor : (⌊Real.sqrt ((point 2 0 0).x + (point 2 0 0).z)⌋ : ℤ) = 1 := by
      rw [show (point 2 0 0).x = 2 from rfl, show (point 2 0 0).z = 0
        from rfl, show (2:ℝ) + 0 = 2 by norm_num]
      have h1 : (1:ℝ) ≤ Real.sqrt 2 := by
        rw [show (1:ℝ) = Real.sqrt 1 from Real.sqrt_one.symm]
        exact Real.sqrt_le_sqrt (by norm_num)
      have h2 : Real.sqrt 2 < 2 := by
        have h3 := Real.sqrt_lt_sqrt (by norm_num : (0:ℝ) ≤ 2)
          (by norm_num : (2:ℝ) < 4)
        rw [sqrt_four] at h3
        exact h3
      rw [Int.floor_eq_iff]
      constructor
      · push_cast
        exact h1
      · push_cast
        linarith
    rw [hfloor, if_neg (by norm_num)]
  · rw [show ((2:ℝ) ^ 2 + 0 ^ 2) = 4 by norm_num, sqrt_four]
    norm_num

/-- Claim C6, amended: for every shape whose transform is invertible and
every world point whose transformed local normal is nonzero (in particular
every point on the surface of the shape), normal_at returns a vector with
fourth component 0 and length exactly 1 (hence within the 1e-5 tolerance of
1); the claim as stated over every world point is refuted below at the
center of a unit sphere, where the normal degenerates to the zero vector. -/
theorem C6_normal_unit (s : Shape) (p : Tup) (mi mt : Matrix4)
    (h1 : s.transform.inverse = some mi)
    (h2 : s.transform.transpose.inverse = some mt)
    (hnz : ¬((mt.mulTup (s.shapeNormalAt (mi.mulTup p))).x = 0 ∧
      (mt.mulTup (s.shapeNormalAt (mi.mulTup p))).y = 0 ∧
      (mt.mulTup (s.shapeNormalAt (mi.mulTup p))).z = 0)) :
    ∃ v, s.normalAt p = some v ∧ v.w = 0 ∧ v.length = 1 := by
  unfold Shape.normalAt
  rw [h1, h2]
  simp only [Option.map_some', Option.some_bind]
  refine ⟨_, rfl, rfl, ?_⟩
  exact Tup.norm_length_eq_one _ hnz

/-- Witness for C6 on the identity-transform floor plane at an arbitrary
point. -/
theorem C6_witness :
    ∃ v, floorShape.normalAt (point 1 2 3) = some v ∧ v.w = 0 ∧
      v.length = 1 := by
  refine C6_normal_unit floorShape (point 1 2 3) Matrix4.ident Matrix4.ident
    ident_inverse
    (by rw [show floorShape.transform = Matrix4.ident from rfl,
      ident_transpose]; exact ident_inverse) ?_
  intro hcon
  have hy := hcon.2.1
  norm_num [Matrix4.mulTup, Matrix4.ident, Shape.shapeNormalAt, floorShape,
    vector] at hy

/-- A unit sphere with the identity transform. -/
def unitSphere : Shape := .sphere Matrix4.ident Material.default

/-- Counterexample to claim C6 as stated: at the center of the unit sphere
the local normal is the zero vector, so normal_at returns the zero vector,
whose length 0 is not within 1e-5 of 1. -/
theorem C6_counterexample :
    unitSphere.normalAt (point 0 0 0) = some ⟨0, 0, 0, 0⟩ ∧
    (Tup.mk (0:ℝ) 0 0 0).length = 0 ∧
    ¬(|(Tup.mk (0:ℝ) 0 0 0).length - 1| ≤ 0.00001) := by
  have hlen : (Tup.mk (0:ℝ) 0 0 0).length = 0 := by
    unfold Tup.length
    rw [show (0:ℝ) * 0 + 0 * 0 + 0 * 0 = 0 by norm_num, Real.sqrt_zero]
  refine ⟨?_, hlen, ?_⟩
  · unfold Shape.normalAt
    rw [show unitSphere.transform = Matrix4.ident from rfl, ident_inverse,
      ident_transpose, ident_inverse]
    simp only [Option.map_some', Option.some_bind]
    congr 1
    have hl : Matrix4.ident.mulTup (point 0 0 0) = point 0 0 0 := by
      unfold Matrix4.mulTup Matrix4.ident point
      ext <;> norm_num
    rw [hl]
    have hn : unitSphere.shapeNormalAt (point 0 0 0) = ⟨0, 0, 0, 0⟩ := by
      show (point 0 0 0).sub (point 0 0 0) = _
      unfold Tup.sub point
      ext <;> norm_num
    rw [hn]
    have hm : Matrix4.ident.mulTup ⟨0, 0, 0, 0⟩ = ⟨0, 0, 0, 0⟩ := by
      unfold Matrix4.mulTup Matrix4.ident
      ext <;> norm_num
    rw [hm]
    unfold Tup.norm
    rw [hlen]
    ext <;> norm_num
  · rw [hlen, show (0:ℝ) - 1 = -1 by norm_num, abs_neg,
      abs_of_pos (by norm_num : (0:ℝ) < 1)]
    norm_num

/-- A fold that only ever receives absent pixels leaves the canvas alone. -/
lemma foldl_none_eq (f : Canvas → Option (ℕ × ℕ × Colour) → Canvas)
    (hf : ∀ canvas, f canvas none = canvas)
    (l : List (Option (ℕ × ℕ × Colour))) (init : Canvas)
    (h : ∀ x ∈ l, x = none) : l.foldl f init = init := by
  induction l generalizing init with
  | nil => rfl
  | cons a tl ih =>
      have ha : a = none := h a (List.mem_cons_self _ _)
      subst ha
      rw [List.foldl_cons, hf]
      exact ih init (fun x hx => h x (List.mem_cons_of_mem _ hx))

/-- Claim C10: a camera with a non-invertible transform yields no ray for
any pixel, and render still completes with a full width-by-height canvas in
which every pixel keeps the default black colour. -/
theorem C10_singular_camera (c : Camera) (w : World) (d : ℕ)
    (h : c.transform.inverse = none) :
    (∀ x y : ℝ, c.rayForPixel x y = none) ∧
    (c.render w d).width = c.hSize ∧
    (c.render w d).height = c.vSize ∧
    (∀ x y : ℕ, x < c.hSize → y < c.vSize →
      (c.render w d).getPixel x y = some Colour.black) := by
  have hray : ∀ x y : ℝ, c.rayForPixel x y = none := by
    intro x y
    unfold Camera.rayForPixel
    rw [h]
    rfl
  have hrender : c.render w d = Canvas.new c.hSize c.vSize := by
    show ((List.range c.vSize).flatMap (fun (y : ℕ) =>
      (List.range c.hSize).map (fun (x : ℕ) =>
        ((c.rayForPixel (x : ℝ) (y : ℝ)).bind
          (fun r => w.colorAt r d)).map
          (fun col => (x, y, col))))).foldl
      (fun canvas item =>
        match item with
        | some (x, y, col) => canvas.setPixel x y col
        | none => canvas)
      (Canvas.new c.hSize c.vSize) = Canvas.new c.hSize c.vSize
    apply foldl_none_eq
    · intro canvas
      rfl
    · intro x hx
      rcases List.mem_flatMap.mp hx with ⟨y, hy, hxy⟩
      rcases List.mem_map.mp hxy with ⟨x0, hx0, hfx⟩
      rw [← hfx, hray]
      rfl
  refine ⟨hray, by rw [hrender]; rfl, by rw [hrender]; rfl, ?_⟩
  intro x y hx hy
  rw [hrender]
  unfold Canvas.getPixel Canvas.new
  rw [if_neg (by push_neg; exact ⟨hx, hy⟩)]
  show some (((List.replicate c.vSize
    (List.replicate c.hSize Colour.black)).getD y []).getD x Colour.black) =
    some Colour.black
  simp only [List.getD_eq_getElem?_getD, List.getElem?_replicate, if_pos hy,
    if_pos hx, Option.getD_some]

/-- A 2 by 2 camera carrying the singular transform. -/
def singularCamera : Camera := ⟨2, 2, 1, 1, 1, singularM, 1⟩

/-- Witness for C10 on the 2 by 2 singular camera. -/
theorem C10_witness :
    singularCamera.transform.inverse = none ∧
    singularCamera.rayForPixel 0 0 = none ∧
    (singularCamera.render exWorld 1).getPixel 0 0 = some Colour.black := by
  have hinv : singularCamera.transform.inverse = none := by
    rw [Matrix4.inverse, if_pos (by norm_num [singularCamera, singularM,
      Matrix4.determinant, det3, det2])]
  exact ⟨hinv,
    (C10_singular_camera singularCamera exWorld 1 hinv).1 0 0,
    (C10_singular_camera singularCamera exWorld 1 hinv).2.2.2 0 0
      (by norm_num [singularCamera]) (by norm_num [singularCamera])⟩

end

end RayTracer
